import Mathlib

/-!
# Verification of the Palmetto feature-recognition engine

Shallow embedding of the core of `src/core/apps/palmetto_engine`:
the attributed adjacency graph (AAG) builder (`aag.cpp`), the hole,
fillet and cavity recognizers, the dense SDF voxel loop
(`sdf_generator.cpp`), the molding accessibility analyzer
(`accessibility_analyzer.cpp`) and the feature-id generation of every
recognizer.

Modelling conventions:
* `double` is modelled by `ℚ`.  Geometric quantities produced by the
  external OpenCASCADE kernel (sampled normals, sampled points, arc
  angles of edges, dihedral angles) are inputs of the model, exactly as
  they are inputs of the C++ code through the kernel interface.
* Comparisons of Euclidean norms `‖v‖ < tol` are embedded as
  `‖v‖² < tol²` (equivalent for nonnegative quantities), so that no
  square root is needed; each such place is marked in a comment.
* Unit-vector normalisation that only feeds the *sign* of a dot product
  is dropped (the sign is invariant under positive scaling); marked in
  comments.
-/

namespace Palmetto

/-- 3-component rational vector, standing for `gp_Vec` / `gp_Pnt` /
`gp_Dir` (the kernel guarantees `gp_Dir` is unit length; the model keeps
the vector unnormalised and only ever uses sign- and scale-invariant
comparisons on it, as noted at each use). -/
structure Vec3 where
  x : ℚ
  y : ℚ
  z : ℚ
deriving DecidableEq, Repr, Inhabited

namespace Vec3

def dot (a b : Vec3) : ℚ := a.x * b.x + a.y * b.y + a.z * b.z

def sub (a b : Vec3) : Vec3 := ⟨a.x - b.x, a.y - b.y, a.z - b.z⟩

def add (a b : Vec3) : Vec3 := ⟨a.x + b.x, a.y + b.y, a.z + b.z⟩

def smul (c : ℚ) (a : Vec3) : Vec3 := ⟨c * a.x, c * a.y, c * a.z⟩

def cross (a b : Vec3) : Vec3 :=
  ⟨a.y * b.z - a.z * b.y, a.z * b.x - a.x * b.z, a.x * b.y - a.y * b.x⟩

def neg (a : Vec3) : Vec3 := ⟨-a.x, -a.y, -a.z⟩

/-- Squared Euclidean norm (`Magnitude()` squared). -/
def normSq (a : Vec3) : ℚ := dot a a

end Vec3

/-! ## AAG data model (`aag.h` / `aag.cpp`)

A B-rep edge is abstracted to the list of ids of its incident faces
(the result of `TopExp::MapShapesAndAncestors` plus the `IsSame` search
over `faces_`; an id `≥ numFaces` stands for a face that is not found,
i.e. `face_id = -1` in the source) together with the signed dihedral
angle in degrees that `ComputeDihedralAngle` evaluates for it via the
kernel. -/

structure BrepEdge where
  /-- ids of the faces incident to this edge -/
  incident : List ℕ
  /-- result of `AAG::ComputeDihedralAngle` for this edge (degrees) -/
  dihedral : ℚ
deriving DecidableEq, Repr

structure Shape where
  numFaces : ℕ
  brepEdges : List BrepEdge
deriving Repr

/-- `AAGEdge` of `aag.h`: the two face ids, the signed dihedral angle
and the classification flags set in `AAG::BuildAdjacency`. -/
structure AAGEdge where
  face1_id : ℕ
  face2_id : ℕ
  dihedral_angle : ℚ
  is_smooth : Bool
  is_convex : Bool
  is_concave : Bool
deriving DecidableEq, Repr

/-- Classification of `AAG::BuildAdjacency` (aag.cpp:190-198):
`|θ| > 177` → smooth, else `θ < 0` → convex, else concave. -/
def classifyEdge (f1 f2 : ℕ) (angle : ℚ) : AAGEdge :=
  if |angle| > 177 then
    ⟨f1, f2, angle, true, false, false⟩
  else if angle < 0 then
    ⟨f1, f2, angle, false, true, false⟩
  else
    ⟨f1, f2, angle, false, false, true⟩

/-- State of the adjacency build: the `edges_` vector and the
`edge_index_` map from ordered face-id pairs to indices into `edges_`
(later insertions overwrite, as in `std::map::operator[]`). -/
structure AdjState where
  edges : List AAGEdge
  index : ℕ × ℕ → Option ℕ

/-- One iteration of the edge loop of `AAG::BuildAdjacency`
(aag.cpp:161-206): an edge with exactly two incident faces whose ids
both resolve produces one `AAGEdge`, stored under both orderings of the
pair; every other edge is skipped. -/
def buildAdjStep (numFaces : ℕ) (st : AdjState) (e : BrepEdge) : AdjState :=
  match e.incident with
  | [f1, f2] =>
      if f1 < numFaces ∧ f2 < numFaces then
        let aagEdge := classifyEdge f1 f2 e.dihedral
        let idx := st.edges.length
        { edges := st.edges ++ [aagEdge],
          index := fun p =>
            if p = (f1, f2) ∨ p = (f2, f1) then some idx else st.index p }
      else st
  | _ => st

/-- `AAG::BuildAdjacency`: fold the step over all B-rep edges. -/
def buildAdjacency (s : Shape) : AdjState :=
  s.brepEdges.foldl (buildAdjStep s.numFaces) ⟨[], fun _ => none⟩

/-- `AAG::GetEdge` (aag.cpp:296-302): look the ordered pair up in
`edge_index_` and return the stored record. -/
def getEdge (st : AdjState) (f1 f2 : ℕ) : Option AAGEdge :=
  (st.index (f1, f2)).bind fun k => st.edges.get? k

/-- `AAG::GetDihedralAngle` (aag.cpp:304-307): the stored angle, or 0
when the pair is absent. -/
def getDihedralAngle (st : AdjState) (f1 f2 : ℕ) : ℚ :=
  match getEdge st f1 f2 with
  | some e => e.dihedral_angle
  | none => 0

/-- Unordered-pair match against an `AAGEdge`'s two face ids. -/
def edgeHasPair (e : AAGEdge) (i j : ℕ) : Bool :=
  (e.face1_id = i ∧ e.face2_id = j) ∨ (e.face1_id = j ∧ e.face2_id = i)

/-- Number of AAG-edge records carrying the unordered pair `{i, j}`. -/
def pairCount (st : AdjState) (i j : ℕ) : ℕ :=
  st.edges.countP (fun e => edgeHasPair e i j)

/-- A B-rep edge *qualifies* if it has exactly two incident faces and
both ids resolve; exactly these produce an AAG-edge. -/
def qualifies (numFaces : ℕ) (e : BrepEdge) : Bool :=
  match e.incident with
  | [f1, f2] => f1 < numFaces ∧ f2 < numFaces
  | _ => false

end Palmetto

namespace Palmetto

/-- Unordered-pair match against the incident-face list of a B-rep
edge. -/
def brepPair (e : BrepEdge) (i j : ℕ) : Bool :=
  match e.incident with
  | [a, b] => (a = i ∧ b = j) ∨ (a = j ∧ b = i)
  | _ => false

/-- What one qualifying B-rep edge contributes to `edges_`. -/
def mkAAGEdge? (numFaces : ℕ) (e : BrepEdge) : Option AAGEdge :=
  match e.incident with
  | [f1, f2] =>
      if f1 < numFaces ∧ f2 < numFaces then
        some (classifyEdge f1 f2 e.dihedral)
      else none
  | _ => none

lemma buildAdjStep_edges (numFaces : ℕ) (st : AdjState) (e : BrepEdge) :
    (buildAdjStep numFaces st e).edges =
      st.edges ++ (mkAAGEdge? numFaces e).toList := by
  unfold buildAdjStep mkAAGEdge?
  rcases e with ⟨inc, θ⟩
  match inc with
  | [] => simp
  | [a] => simp
  | [a, b] =>
      by_cases h : a < numFaces ∧ b < numFaces <;> simp [h]
  | a :: b :: c :: t => simp

lemma foldl_buildAdjStep_edges (numFaces : ℕ) (l : List BrepEdge)
    (st : AdjState) :
    (l.foldl (buildAdjStep numFaces) st).edges =
      st.edges ++ l.filterMap (mkAAGEdge? numFaces) := by
  induction l generalizing st with
  | nil => simp
  | cons e t ih =>
      simp only [List.foldl_cons, List.filterMap_cons]
      rcases h : mkAAGEdge? numFaces e with _ | a
      · have : (buildAdjStep numFaces st e).edges = st.edges := by
          rw [buildAdjStep_edges, h]; simp
        rw [ih, this]
      · have : (buildAdjStep numFaces st e).edges = st.edges ++ [a] := by
          rw [buildAdjStep_edges, h]; simp
        rw [ih, this]; simp

/-- `edges_` after `BuildAdjacency` is exactly the filter-map of the
qualifying B-rep edges. -/
lemma buildAdjacency_edges (s : Shape) :
    (buildAdjacency s).edges = s.brepEdges.filterMap (mkAAGEdge? s.numFaces) := by
  unfold buildAdjacency
  rw [foldl_buildAdjStep_edges]
  simp

lemma mkAAGEdge?_isSome (numFaces : ℕ) (e : BrepEdge) :
    (mkAAGEdge? numFaces e).isSome = qualifies numFaces e := by
  unfold mkAAGEdge? qualifies
  rcases e with ⟨inc, θ⟩
  match inc with
  | [] => rfl
  | [a] => rfl
  | [a, b] => by_cases h : a < numFaces ∧ b < numFaces <;> simp [h]
  | a :: b :: c :: t => rfl

lemma classifyEdge_pair (f1 f2 : ℕ) (θ : ℚ) (i j : ℕ) :
    edgeHasPair (classifyEdge f1 f2 θ) i j =
      ((f1 = i ∧ f2 = j) ∨ (f1 = j ∧ f2 = i) : Bool) := by
  unfold classifyEdge edgeHasPair
  split <;> [skip; split] <;> rfl

lemma mkAAGEdge?_pair (numFaces : ℕ) (e : BrepEdge) (i j : ℕ) (a : AAGEdge)
    (h : mkAAGEdge? numFaces e = some a) :
    edgeHasPair a i j = (qualifies numFaces e && brepPair e i j) := by
  unfold mkAAGEdge? at h
  unfold qualifies brepPair
  rcases e with ⟨inc, θ⟩
  match inc with
  | [] => simp at h
  | [x] => simp at h
  | [f1, f2] =>
      simp only at h ⊢
      by_cases hq : f1 < numFaces ∧ f2 < numFaces
      · rw [if_pos hq] at h
        cases h
        rw [classifyEdge_pair]
        simp [hq]
      · rw [if_neg hq] at h; cases h
  | x :: y :: z :: t => simp at h

/-- Accounting of pair multiplicities: the number of AAG-edge records
with unordered pair `{i, j}` equals the number of qualifying B-rep
edges whose incident faces are `{i, j}`. -/
lemma pairCount_eq (s : Shape) (i j : ℕ) :
    pairCount (buildAdjacency s) i j =
      s.brepEdges.countP (fun e => qualifies s.numFaces e && brepPair e i j) := by
  unfold pairCount
  rw [buildAdjacency_edges]
  induction s.brepEdges with
  | nil => rfl
  | cons e t ih =>
      rw [List.filterMap_cons]
      rcases h : mkAAGEdge? s.numFaces e with _ | a
      · have hq : qualifies s.numFaces e = false := by
          rw [← mkAAGEdge?_isSome, h]; rfl
        rw [List.countP_cons, ih, hq]
        simp
      · have hp := mkAAGEdge?_pair s.numFaces e i j a h
        rw [List.countP_cons, List.countP_cons, ih, hp]

end Palmetto

namespace Palmetto

/-- The `edge_index_` map is symmetric throughout the build: both
orderings of a pair are always assigned together (aag.cpp:203-204). -/
def IndexSymm (st : AdjState) : Prop :=
  ∀ i j : ℕ, st.index (i, j) = st.index (j, i)

lemma buildAdjStep_symm (numFaces : ℕ) (st : AdjState) (e : BrepEdge)
    (h : IndexSymm st) : IndexSymm (buildAdjStep numFaces st e) := by
  unfold buildAdjStep
  rcases e with ⟨inc, θ⟩
  match inc with
  | [] => exact h
  | [a] => exact h
  | [f1, f2] =>
      by_cases hq : f1 < numFaces ∧ f2 < numFaces
      · simp only [if_pos hq]
        intro i j
        simp only [Prod.mk.injEq]
        by_cases hc : (i = f1 ∧ j = f2) ∨ (i = f2 ∧ j = f1)
        · have hc' : (j = f1 ∧ i = f2) ∨ (j = f2 ∧ i = f1) := by tauto
          rw [if_pos hc, if_pos hc']
        · have hc' : ¬ ((j = f1 ∧ i = f2) ∨ (j = f2 ∧ i = f1)) := by tauto
          rw [if_neg hc, if_neg hc']
          exact h i j
      · simp only [if_neg hq]; exact h
  | a :: b :: c :: t => exact h

lemma buildAdjacency_symm (s : Shape) : IndexSymm (buildAdjacency s) := by
  unfold buildAdjacency
  generalize hst : (⟨[], fun _ => none⟩ : AdjState) = st0
  have h0 : IndexSymm st0 := by
    intro i j; rw [← hst]
  clear hst
  induction s.brepEdges generalizing st0 with
  | nil => exact h0
  | cons e t ih =>
      exact ih _ (buildAdjStep_symm s.numFaces st0 e h0)

/-- Both orderings of a pair resolve to the same stored AAG-edge
record. -/
lemma getEdge_symm (s : Shape) (i j : ℕ) :
    getEdge (buildAdjacency s) i j = getEdge (buildAdjacency s) j i := by
  unfold getEdge
  rw [buildAdjacency_symm s i j]

/-- C1.  For every AAG built from a shape and every pair of faces
`(i, j)` — in particular every adjacent pair — the dihedral-angle
lookup is symmetric: `GetDihedralAngle(i, j) = GetDihedralAngle(j, i)`,
because both orderings of the pair resolve to the same stored AAG-edge
record in `edge_index_`. -/
theorem dihedral_lookup_symmetric (s : Shape) (i j : ℕ) :
    getDihedralAngle (buildAdjacency s) i j =
      getDihedralAngle (buildAdjacency s) j i := by
  unfold getDihedralAngle
  rw [getEdge_symm]

/-- C3 counterexample.  Two distinct B-rep edges can be incident to the
same two faces (e.g. the two straight edges a half-cylindrical slot
shares with a planar face); `BuildAdjacency` then stores one AAG-edge
per B-rep edge, so the unordered pair `{0, 1}` appears twice. -/
theorem aag_pair_appears_twice :
    pairCount
      (buildAdjacency ⟨2, [⟨[0, 1], 90⟩, ⟨[0, 1], -90⟩]⟩) 0 1 = 2 := by
  decide

/-- C3 amended.  Each B-rep edge with exactly two incident faces (both
resolving to face ids) produces exactly one AAG-edge and every other
edge produces none, so `edges_` has exactly one record per qualifying
B-rep edge; an unordered pair `{i, j}` appears once per qualifying
B-rep edge incident to `{i, j}`, hence at most once *provided* no two
qualifying B-rep edges share the same unordered pair of incident
faces. -/
theorem aag_edge_production (s : Shape) (i j : ℕ)
    (h : s.brepEdges.countP
      (fun e => qualifies s.numFaces e && brepPair e i j) ≤ 1) :
    (buildAdjacency s).edges.length =
      s.brepEdges.countP (qualifies s.numFaces) ∧
    pairCount (buildAdjacency s) i j ≤ 1 := by
  constructor
  · rw [buildAdjacency_edges]
    induction s.brepEdges with
    | nil => rfl
    | cons e t ih =>
        rw [List.filterMap_cons, List.countP_cons]
        rcases he : mkAAGEdge? s.numFaces e with _ | a
        · have hq : qualifies s.numFaces e = false := by
            rw [← mkAAGEdge?_isSome, he]; rfl
          rw [hq]; simpa using ih
        · have hq : qualifies s.numFaces e = true := by
            rw [← mkAAGEdge?_isSome, he]; rfl
          rw [hq]; simpa using ih
  · rw [pairCount_eq]
    exact h

/-- Witness for C3: a cube-like shape fragment with three distinct
face pairs, one boundary edge and one unresolvable edge. -/
theorem aag_edge_production_witness :
    ((⟨4, [⟨[0, 1], -90⟩, ⟨[1, 2], 90⟩, ⟨[2, 3], 179⟩, ⟨[3], 0⟩,
        ⟨[0, 7], 45⟩]⟩ : Shape).brepEdges.countP
      (fun e => qualifies 4 e && brepPair e 0 1) ≤ 1) ∧
    ((buildAdjacency ⟨4, [⟨[0, 1], -90⟩, ⟨[1, 2], 90⟩, ⟨[2, 3], 179⟩,
        ⟨[3], 0⟩, ⟨[0, 7], 45⟩]⟩).edges.length =
      (⟨4, [⟨[0, 1], -90⟩, ⟨[1, 2], 90⟩, ⟨[2, 3], 179⟩, ⟨[3], 0⟩,
        ⟨[0, 7], 45⟩]⟩ : Shape).brepEdges.countP (qualifies 4) ∧
     pairCount (buildAdjacency ⟨4, [⟨[0, 1], -90⟩, ⟨[1, 2], 90⟩,
        ⟨[2, 3], 179⟩, ⟨[3], 0⟩, ⟨[0, 7], 45⟩]⟩) 0 1 ≤ 1) :=
  ⟨by decide, aag_edge_production _ 0 1 (by decide)⟩

end Palmetto

namespace Palmetto

/-! ## Face attributes and kernel samples

`FaceAttributes` of `aag.h` as filled by `AAG::ComputeFaceAttributes`,
plus the per-face kernel evaluations that the recognizers request
themselves (sampled mid-parameter point/normal, and the bounding edges
seen through `BRepAdaptor_Curve`). -/

/-- `gp_Ax1`: a point and a direction (unit-length by kernel
contract). -/
structure Axis where
  loc : Vec3
  dir : Vec3
deriving DecidableEq, Repr, Inhabited

/-- A bounding edge of a face as the recognizers see it through
`BRepAdaptor_Curve`: whether it is a circle, the circle's center, and
the parameter range expressed in degrees
(`(LastParameter − FirstParameter) · 180/π`). -/
structure EdgeGeom where
  isCircle : Bool
  center : Vec3
  arcDeg : ℚ
deriving DecidableEq, Repr, Inhabited

/-- `FaceAttributes` (aag.h), restricted to the fields the recognizers
read. -/
structure FaceAttr where
  area : ℚ
  is_planar : Bool
  is_cylinder : Bool
  is_torus : Bool
  cylinder_axis : Axis
  cylinder_radius : ℚ
  torus_axis : Axis
  torus_minor_radius : ℚ
  torus_major_radius : ℚ
  /-- orientation-corrected normal at the parametric midpoint -/
  normal : Vec3
  plane_normal : Vec3
deriving DecidableEq, Repr, Inhabited

/-- Kernel samples of one face requested by the recognizers:
`BRepLProp_SLProps` at the parametric midpoint and the edge explorer
output. -/
structure FaceGeom where
  /-- `props.Value()` at the mid-parameters -/
  midPoint : Vec3
  /-- `props.Normal()` before orientation correction -/
  midNormalRaw : Vec3
  /-- `props.IsNormalDefined()` -/
  normalDefined : Bool
  /-- `face.Orientation() == TopAbs_REVERSED` -/
  orientationReversed : Bool
  /-- `TopExp_Explorer(face, TopAbs_EDGE)` in traversal order -/
  edges : List EdgeGeom
deriving DecidableEq, Repr, Inhabited

/-- The state shared by all recognizers: the face attribute table, the
per-face kernel samples, and the built adjacency. -/
structure Model where
  attrs : List FaceAttr
  geom : List FaceGeom
  adj : AdjState

/-- `AAG::GetFaceAttributes(face_id)` (always called with a valid id in
the source; out-of-range reads return the default record). -/
def attrAt (m : Model) (i : ℕ) : FaceAttr := m.attrs.getD i default

def geomAt (m : Model) (i : ℕ) : FaceGeom := m.geom.getD i default

/-- `AAG::GetFaceCount()`. -/
def faceCount (m : Model) : ℕ := m.attrs.length

/-- `AAG::GetNeighbors` (aag.cpp:282-294): walk `edges_` in order and
collect the opposite endpoint of every edge touching `face_id`. -/
def getNeighbors (st : AdjState) (face_id : ℕ) : List ℕ :=
  st.edges.filterMap fun e =>
    if e.face1_id = face_id then some e.face2_id
    else if e.face2_id = face_id then some e.face1_id
    else none

/-- `AAG::GetCylindricalFaces` (aag.cpp:309-319): ids in ascending
order with the cylinder flag. -/
def getCylindricalFaces (m : Model) : List ℕ :=
  (List.range (faceCount m)).filter fun i => (attrAt m i).is_cylinder

/-- `AAG::GetToroidalFaces` (aag.cpp:321-331). -/
def getToroidalFaces (m : Model) : List ℕ :=
  (List.range (faceCount m)).filter fun i => (attrAt m i).is_torus

/-- `Feature` of `engine.h` (the generated id string is modelled
separately in the feature-id section; `edge_ids` is never filled by
these recognizers). -/
structure Feature where
  ftype : String
  subtype : String
  face_ids : List ℕ
  params : List (String × ℚ)
  confidence : ℚ
  source : String
deriving DecidableEq, Repr, Inhabited

/-! ## Hole recognizer (`hole_recognizer.cpp`) -/

/-- Orientation correction (`if REVERSED then normal.Reverse()`). -/
def correctedNormal (g : FaceGeom) : Vec3 :=
  if g.orientationReversed then g.midNormalRaw.neg else g.midNormalRaw

/-- The radial vector from the closest point on the cylinder axis to
the sampled surface point (hole_recognizer.cpp:127-133). -/
def radialVec (axis : Axis) (point : Vec3) : Vec3 :=
  let vec_to_point := point.sub axis.loc
  let projection_length := vec_to_point.dot axis.dir
  let closest_on_axis := axis.loc.add (Vec3.smul projection_length axis.dir)
  point.sub closest_on_axis

/-- `HoleRecognizer::IsInternal` (hole_recognizer.cpp:96-148).  The
source compares `radial.Magnitude() < 1e-9` and then the sign of
`normal · (radial/‖radial‖)`; the model compares `‖radial‖² < 1e-18`
(equivalent) and the sign of `normal · radial` (normalisation by a
positive scalar does not change the sign). -/
def isInternal (m : Model) (face_id : ℕ) : Bool :=
  let attrs := attrAt m face_id
  if ¬attrs.is_cylinder then false
  else
    let g := geomAt m face_id
    if ¬g.normalDefined then false
    else
      let normal := correctedNormal g
      let radial := radialVec attrs.cylinder_axis g.midPoint
      if radial.normSq < 1 / 10 ^ 18 then false
      else decide (normal.dot radial < 0)

/-- `gp_Lin(axis).Distance(center) < 1e-3` (hole_recognizer.cpp:174-176)
embedded squared: `‖(center − loc) × dir‖² < 1e-6 · ‖dir‖²` (for the
unit `dir` the kernel guarantees, this is exactly `distance² < 1e-6`). -/
def concentricWithAxis (axis : Axis) (center : Vec3) : Bool :=
  ((center.sub axis.loc).cross axis.dir).normSq < (1 / 10 ^ 6) * axis.dir.normSq

/-- `|param_range − 2π| < 1e-6` rad (hole_recognizer.cpp:184) in the
degree scale of `arcDeg`.  The exact bound is `1e-6 · 180/π ≈ 5.73e-5`
degrees, which is irrational; the model uses `1e-4`.  Any bound below
`85` yields identical semicircle/quarter counts, because an arc within
it of `360°` is within `5°` of neither `180°` nor `90°`. -/
def isFullArc (e : EdgeGeom) : Bool := |e.arcDeg - 360| < 1 / 10 ^ 4

/-- A concentric circular edge counted as a semicircle
(hole_recognizer.cpp:188). -/
def holeSemiArc (axis : Axis) (e : EdgeGeom) : Bool :=
  e.isCircle ∧ concentricWithAxis axis e.center ∧ ¬isFullArc e ∧
    |e.arcDeg - 180| < 5

/-- A concentric circular edge counted as a quarter-circle (the
`else if` branch, hole_recognizer.cpp:190). -/
def holeQuarterArc (axis : Axis) (e : EdgeGeom) : Bool :=
  e.isCircle ∧ concentricWithAxis axis e.center ∧ ¬isFullArc e ∧
    ¬(|e.arcDeg - 180| < 5) ∧ |e.arcDeg - 90| < 5

/-- `HoleRecognizer::HasConcaveCircularEdges`
(hole_recognizer.cpp:150-205).  The single loop with two counters is
expressed as two `countP` passes over the same edge list. -/
def hasConcaveCircularEdges (m : Model) (face_id : ℕ) : Bool :=
  let attrs := attrAt m face_id
  if ¬attrs.is_cylinder then false
  else
    let edges := (geomAt m face_id).edges
    let semicircle_count := edges.countP (holeSemiArc attrs.cylinder_axis)
    let quarter_circle_count := edges.countP (holeQuarterArc attrs.cylinder_axis)
    semicircle_count > 0 ∧ quarter_circle_count = 0

/-- `HoleRecognizer::AreAxesCoincident` (hole_recognizer.cpp:243-273).
`sin(1°) ≈ 0.0174524064` is irrational; the model uses the rational
`17452406/10⁹` (the inputs the claims evaluate are exactly parallel or
clearly non-parallel, so the 10⁻¹⁰-level rounding is inert).  The two
magnitude comparisons against `1e-6` are embedded squared. -/
def areAxesCoincident (axis1 axis2 : Axis) : Bool :=
  let dot := |axis1.dir.dot axis2.dir|
  if |dot - 1| > 17452406 / 10 ^ 9 then false
  else
    let d := axis2.loc.sub axis1.loc
    if d.normSq < 1 / 10 ^ 12 then true
    else (d.cross axis1.dir).normSq < 1 / 10 ^ 12

/-- The recursive visitor inside `HoleRecognizer::FindCoaxialCylinders`
(hole_recognizer.cpp:214-236), with explicit fuel bounding the
recursion depth (the source recursion terminates because `collected`
grows at each call and is bounded by the face count; `faceCount + 1`
fuel therefore reproduces it exactly). -/
def visitCoaxial (m : Model) (refAxis : Axis) (traversed : List ℕ) :
    ℕ → ℕ → List ℕ → List ℕ
  | 0, _, collected => collected
  | fuel + 1, current_id, collected =>
      (getNeighbors m.adj current_id).foldl
        (fun collected neighbor_id =>
          if neighbor_id ∈ traversed then collected
          else if neighbor_id ∈ collected then collected
          else
            let neighbor_attrs := attrAt m neighbor_id
            if ¬neighbor_attrs.is_cylinder then collected
            else if ¬areAxesCoincident refAxis neighbor_attrs.cylinder_axis then
              collected
            else if ¬isInternal m neighbor_id then collected
            else visitCoaxial m refAxis traversed fuel neighbor_id
              (collected ++ [neighbor_id]))
        collected

/-- `HoleRecognizer::FindCoaxialCylinders` (hole_recognizer.cpp:207-241). -/
def findCoaxialCylinders (m : Model) (traversed : List ℕ)
    (seed_face_id : ℕ) : List ℕ :=
  visitCoaxial m (attrAt m seed_face_id).cylinder_axis traversed
    (faceCount m + 1) seed_face_id [seed_face_id]

/-- `HoleRecognizer::CreateSimpleHole` (hole_recognizer.cpp:275-303),
without the id string (see the feature-id section). -/
def createSimpleHole (m : Model) (face_id : ℕ) : Feature :=
  let attrs := attrAt m face_id
  { ftype := "hole", subtype := "simple", face_ids := [face_id],
    params := [("diameter_mm", 2 * attrs.cylinder_radius),
               ("radius_mm", attrs.cylinder_radius),
               ("axis_x", attrs.cylinder_axis.dir.x),
               ("axis_y", attrs.cylinder_axis.dir.y),
               ("axis_z", attrs.cylinder_axis.dir.z)],
    confidence := 95 / 100, source := "hole_recognizer" }

/-- `HoleRecognizer::CreateCounterboredHole`
(hole_recognizer.cpp:305-335). -/
def createCounterboredHole (m : Model) (face_ids : List ℕ) : Feature :=
  let min_radius := face_ids.foldl
    (fun mr f =>
      if (attrAt m f).cylinder_radius < mr then (attrAt m f).cylinder_radius
      else mr) (10 ^ 10)
  { ftype := "hole", subtype := "counterbored", face_ids := face_ids,
    params := [("diameter_mm", 2 * min_radius),
               ("radius_mm", min_radius),
               ("bore_count", (face_ids.length : ℚ))],
    confidence := 95 / 100, source := "hole_recognizer" }

/-- One iteration of the seed loop in `HoleRecognizer::Recognize`
(hole_recognizer.cpp:50-89), threading `(traversed, holes)`. -/
def holeStep (m : Model) (excluded : List ℕ)
    (st : List ℕ × List Feature) (face_id : ℕ) : List ℕ × List Feature :=
  let (traversed, holes) := st
  if face_id ∈ traversed then st
  else if face_id ∈ excluded then st
  else if ¬isInternal m face_id then st
  else if ¬hasConcaveCircularEdges m face_id then st
  else
    let coaxial := findCoaxialCylinders m traversed face_id
    if coaxial.length > 1 then
      (traversed ++ coaxial, holes ++ [createCounterboredHole m coaxial])
    else
      (traversed ++ [face_id], holes ++ [createSimpleHole m face_id])

/-- `HoleRecognizer::Recognize` (hole_recognizer.cpp:41-94). -/
def holeRecognize (m : Model) (excluded : List ℕ) : List Feature :=
  ((getCylindricalFaces m).foldl (holeStep m excluded) ([], [])).2

end Palmetto

namespace Palmetto

/-! ## Fillet recognizer (`fillet_recognizer.cpp`) -/

/-- A circular-arc edge counted as a quarter-circle by the fillet
recognizer (fillet_recognizer.cpp:172-187; no concentricity filter
here, unlike the hole recognizer). -/
def filletQuarterArc (e : EdgeGeom) : Bool :=
  e.isCircle ∧ ¬isFullArc e ∧ |e.arcDeg - 90| < 5

/-- `FilletRecognizer::HasQuarterCircleEdges`
(fillet_recognizer.cpp:155-196). -/
def hasQuarterCircleEdges (m : Model) (face_id : ℕ) : Bool :=
  let attrs := attrAt m face_id
  if ¬attrs.is_cylinder ∧ ¬attrs.is_torus then false
  else (geomAt m face_id).edges.countP filletQuarterArc > 0

/-- `FilletRecognizer::GetFilletRadius` (fillet_recognizer.cpp:226-237). -/
def getFilletRadius (m : Model) (face_id : ℕ) : ℚ :=
  let attrs := attrAt m face_id
  if attrs.is_cylinder then attrs.cylinder_radius
  else if attrs.is_torus then attrs.torus_minor_radius
  else 0

/-- `FilletRecognizer::IsFilletCandidate` (fillet_recognizer.cpp:75-100). -/
def isFilletCandidate (m : Model) (face_id : ℕ) (max_radius : ℚ) : Bool :=
  let attrs := attrAt m face_id
  if ¬attrs.is_cylinder ∧ ¬attrs.is_torus then false
  else
    let radius :=
      if attrs.is_cylinder then attrs.cylinder_radius
      else attrs.torus_minor_radius
    if radius > max_radius then false
    else hasQuarterCircleEdges m face_id

/-- `FilletRecognizer::CreateFillet` (fillet_recognizer.cpp:239-274),
without the id string. -/
def createFillet (m : Model) (face_id : ℕ) (radius : ℚ) : Feature :=
  let attrs := attrAt m face_id
  if attrs.is_cylinder then
    { ftype := "fillet", subtype := "blend", face_ids := [face_id],
      params := [("radius_mm", radius),
                 ("axis_x", attrs.cylinder_axis.dir.x),
                 ("axis_y", attrs.cylinder_axis.dir.y),
                 ("axis_z", attrs.cylinder_axis.dir.z)],
      confidence := 85 / 100, source := "fillet_recognizer" }
  else if attrs.is_torus then
    { ftype := "fillet", subtype := "curved_blend", face_ids := [face_id],
      params := [("radius_mm", radius),
                 ("axis_x", attrs.torus_axis.dir.x),
                 ("axis_y", attrs.torus_axis.dir.y),
                 ("axis_z", attrs.torus_axis.dir.z),
                 ("major_radius_mm", attrs.torus_major_radius)],
      confidence := 85 / 100, source := "fillet_recognizer" }
  else
    { ftype := "fillet", subtype := "blend", face_ids := [face_id],
      params := [("radius_mm", radius)],
      confidence := 85 / 100, source := "fillet_recognizer" }

/-- `FilletRecognizer::Recognize` (fillet_recognizer.cpp:40-73):
cylindrical candidates first, toroidal candidates second. -/
def filletRecognize (m : Model) (max_radius : ℚ) : List Feature :=
  ((getCylindricalFaces m).filter
      (fun f => isFilletCandidate m f max_radius)).map
    (fun f => createFillet m f (getFilletRadius m f)) ++
  ((getToroidalFaces m).filter
      (fun f => isFilletCandidate m f max_radius)).map
    (fun f => createFillet m f (getFilletRadius m f))

end Palmetto

namespace Palmetto

/-! ## Invariants of the hole recognizer traversal -/

lemma visitCoaxial_extend (m : Model) (ax : Axis) (trav : List ℕ) :
    ∀ fuel cur col, ∃ ext, visitCoaxial m ax trav fuel cur col = col ++ ext := by
  intro fuel
  induction fuel with
  | zero => intro cur col; exact ⟨[], by simp [visitCoaxial]⟩
  | succ n ih =>
      intro cur col
      unfold visitCoaxial
      refine List.foldlRecOn (motive := fun c => ∃ ext, c = col ++ ext)
        (getNeighbors m.adj cur) _ col ⟨[], by simp⟩ ?_
      intro b hb a _
      obtain ⟨ext, hext⟩ := hb
      dsimp only
      split_ifs with h1 h2 h3 h4 h5
      · exact ⟨ext, hext⟩
      · exact ⟨ext, hext⟩
      · obtain ⟨ext2, hext2⟩ := ih a (b ++ [a])
        exact ⟨ext ++ ([a] ++ ext2), by rw [hext2, hext]; simp⟩
      · exact ⟨ext, hext⟩
      · exact ⟨ext, hext⟩
      · exact ⟨ext, hext⟩

lemma visitCoaxial_mem (m : Model) (ax : Axis) (trav : List ℕ) :
    ∀ fuel cur col, ∀ x ∈ visitCoaxial m ax trav fuel cur col,
      x ∈ col ∨ x ∉ trav := by
  intro fuel
  induction fuel with
  | zero =>
      intro cur col x hx
      exact Or.inl (by simpa [visitCoaxial] using hx)
  | succ n ih =>
      intro cur col
      unfold visitCoaxial
      refine List.foldlRecOn (motive := fun c => ∀ x ∈ c, x ∈ col ∨ x ∉ trav)
        (getNeighbors m.adj cur) _ col (fun x hx => Or.inl hx) ?_
      intro b hb a _
      dsimp only
      split_ifs with h1 h2 h3 h4 h5
      · exact hb
      · exact hb
      · intro x hx
        rcases ih a (b ++ [a]) x hx with hmem | hnt
        · rcases List.mem_append.mp hmem with hcol | hsing
          · exact hb x hcol
          · have hxa : x = a := by simpa using hsing
            exact Or.inr (hxa ▸ h1)
        · exact Or.inr hnt
      · exact hb
      · exact hb
      · exact hb

lemma findCoaxialCylinders_eq (m : Model) (trav : List ℕ) (seed : ℕ) :
    ∃ ext, findCoaxialCylinders m trav seed = seed :: ext := by
  obtain ⟨ext, hext⟩ :=
    visitCoaxial_extend m (attrAt m seed).cylinder_axis trav
      (faceCount m + 1) seed [seed]
  exact ⟨ext, by simpa [findCoaxialCylinders] using hext⟩

lemma findCoaxialCylinders_mem (m : Model) (trav : List ℕ) (seed : ℕ)
    (x : ℕ) (hx : x ∈ findCoaxialCylinders m trav seed) :
    x = seed ∨ x ∉ trav := by
  have h := visitCoaxial_mem m (attrAt m seed).cylinder_axis trav
    (faceCount m + 1) seed [seed] x (by simpa [findCoaxialCylinders] using hx)
  rcases h with h | h
  · exact Or.inl (by simpa using h)
  · exact Or.inr h

/-- Invariant carried by the seed loop of `HoleRecognizer::Recognize`:
every face of every emitted feature is in `traversed`; the emitted
face-id lists are pairwise disjoint; and every feature's first face (the
seed) passed the exclusion, internality and edge-pattern guards. -/
def HoleInv (m : Model) (excluded : List ℕ)
    (st : List ℕ × List Feature) : Prop :=
  (∀ h ∈ st.2, ∀ x ∈ h.face_ids, x ∈ st.1) ∧
  List.Pairwise (fun f g => ∀ x ∈ f.face_ids, x ∉ g.face_ids) st.2 ∧
  (∀ h ∈ st.2, ∃ s, h.face_ids.head? = some s ∧ s ∉ excluded ∧
    isInternal m s = true ∧ hasConcaveCircularEdges m s = true)

lemma holeStep_inv (m : Model) (excluded : List ℕ)
    (st : List ℕ × List Feature) (fid : ℕ) (hinv : HoleInv m excluded st) :
    HoleInv m excluded (holeStep m excluded st fid) := by
  obtain ⟨trav, holes⟩ := st
  obtain ⟨h1, h2, h3⟩ := hinv
  unfold holeStep HoleInv
  dsimp only
  split_ifs with g1 g2 g3 g4 g5
  · exact ⟨h1, h2, h3⟩
  · exact ⟨h1, h2, h3⟩
  · -- counterbored branch: g5 : (findCoaxialCylinders m trav fid).length > 1
    refine ⟨?_, ?_, ?_⟩
    · intro h hh x hx
      rcases List.mem_append.mp hh with hold | hnew
      · exact List.mem_append_left _ (h1 h hold x hx)
      · have heq : h = createCounterboredHole m (findCoaxialCylinders m trav fid) := by
          simpa using hnew
        subst heq
        exact List.mem_append_right _ (by simpa [createCounterboredHole] using hx)
    · rw [List.pairwise_append]
      refine ⟨h2, List.pairwise_singleton _ _, ?_⟩
      intro f hf g hg x hxf
      have hg' : g = createCounterboredHole m (findCoaxialCylinders m trav fid) := by
        simpa using hg
      subst hg'
      intro hxg
      have hxco : x ∈ findCoaxialCylinders m trav fid := by
        simpa [createCounterboredHole] using hxg
      have hxtrav : x ∈ trav := h1 f hf x hxf
      rcases findCoaxialCylinders_mem m trav fid x hxco with rfl | hnt
      · exact g1 hxtrav
      · exact hnt hxtrav
    · intro h hh
      rcases List.mem_append.mp hh with hold | hnew
      · exact h3 h hold
      · have heq : h = createCounterboredHole m (findCoaxialCylinders m trav fid) := by
          simpa using hnew
        subst heq
        obtain ⟨ext, hext⟩ := findCoaxialCylinders_eq m trav fid
        refine ⟨fid, ?_, g2, g3, g4⟩
        simp [createCounterboredHole, hext]
  · -- simple branch
    refine ⟨?_, ?_, ?_⟩
    · intro h hh x hx
      rcases List.mem_append.mp hh with hold | hnew
      · exact List.mem_append_left _ (h1 h hold x hx)
      · have heq : h = createSimpleHole m fid := by simpa using hnew
        subst heq
        have hxf : x = fid := by simpa [createSimpleHole] using hx
        subst hxf
        simp
    · rw [List.pairwise_append]
      refine ⟨h2, List.pairwise_singleton _ _, ?_⟩
      intro f hf g hg x hxf
      have hg' : g = createSimpleHole m fid := by simpa using hg
      subst hg'
      intro hxg
      have hxf' : x = fid := by simpa [createSimpleHole] using hxg
      subst hxf'
      exact g1 (h1 f hf _ hxf)
    · intro h hh
      rcases List.mem_append.mp hh with hold | hnew
      · exact h3 h hold
      · have heq : h = createSimpleHole m fid := by simpa using hnew
        subst heq
        exact ⟨fid, by simp [createSimpleHole], g2, g3, g4⟩
  · exact ⟨h1, h2, h3⟩
  · exact ⟨h1, h2, h3⟩

lemma holeRecognize_inv (m : Model) (excluded : List ℕ) :
    HoleInv m excluded
      ((getCylindricalFaces m).foldl (holeStep m excluded) ([], [])) := by
  refine List.foldlRecOn (motive := HoleInv m excluded)
    (getCylindricalFaces m) _ ([], []) ⟨by simp, by simp, by simp⟩ ?_
  intro st hst fid _
  exact holeStep_inv m excluded st fid hst

end Palmetto

namespace Palmetto

/-! ## Characterisations of the hole guards -/

lemma isInternal_spec (m : Model) (f : ℕ) (h : isInternal m f = true) :
    (correctedNormal (geomAt m f)).dot
      (radialVec (attrAt m f).cylinder_axis (geomAt m f).midPoint) < 0 := by
  unfold isInternal at h
  simp only [] at h
  split_ifs at h with h1 h2 h3
  exact of_decide_eq_true h

lemma hasConcaveCircularEdges_spec (m : Model) (f : ℕ)
    (h : hasConcaveCircularEdges m f = true) :
    0 < (geomAt m f).edges.countP (holeSemiArc (attrAt m f).cylinder_axis) ∧
    (geomAt m f).edges.countP (holeQuarterArc (attrAt m f).cylinder_axis) = 0 := by
  unfold hasConcaveCircularEdges at h
  simp only [] at h
  split_ifs at h with h1
  exact of_decide_eq_true h

/-- C10.  Within one invocation of the hole recognizer the face-id sets
of the emitted hole features are pairwise disjoint: every face placed in
a feature (seed or coaxial member) is inserted into the traversed set,
and traversed faces are never revisited as seeds or collected again. -/
theorem hole_features_pairwise_disjoint (m : Model) (excluded : List ℕ) :
    List.Pairwise (fun f g => ∀ x ∈ f.face_ids, x ∉ g.face_ids)
      (holeRecognize m excluded) := by
  unfold holeRecognize
  exact (holeRecognize_inv m excluded).2.1

/-- C2 amended.  The hole recognizer's *seed* guard respects the
exclusion set: the seed face of every emitted hole feature (its first
face id; the only face of a `simple` hole) is not in the excluded set.
Faces collected by coaxial grouping are *not* checked against the
exclusion set (`FindCoaxialCylinders` tests only traversal, cylinder
kind, coaxiality and internality), so a `counterbored` hole may contain
an excluded fillet face, as the C2 counterexample below shows. -/
theorem hole_seed_not_excluded (m : Model) (excluded : List ℕ) :
    ∀ h ∈ holeRecognize m excluded, ∀ s, h.face_ids.head? = some s →
      s ∉ excluded := by
  intro h hh s hs
  obtain ⟨-, -, h3⟩ := holeRecognize_inv m excluded
  obtain ⟨s', hs', hnex, -, -⟩ := h3 h hh
  have hss : s' = s := Option.some.inj (hs'.symm.trans hs)
  exact hss ▸ hnex

/-- C6.  The hole recognizer accepts a seed face only if (a) the
orientation-corrected normal at the face midpoint and the radial vector
from the axis to the sample point have negative dot product, and (b)
among the face's circular edges concentric with the axis
(center-to-axis distance < 10⁻³) the number of semicircles (within 5°
of 180°) is positive and the number of quarter-circles (within 5° of
90°) is zero. -/
theorem hole_seed_guards (m : Model) (excluded : List ℕ) :
    ∀ h ∈ holeRecognize m excluded, ∀ s, h.face_ids.head? = some s →
      (correctedNormal (geomAt m s)).dot
        (radialVec (attrAt m s).cylinder_axis (geomAt m s).midPoint) < 0 ∧
      0 < (geomAt m s).edges.countP (holeSemiArc (attrAt m s).cylinder_axis) ∧
      (geomAt m s).edges.countP (holeQuarterArc (attrAt m s).cylinder_axis) = 0 := by
  intro h hh s hs
  obtain ⟨-, -, h3⟩ := holeRecognize_inv m excluded
  obtain ⟨s', hs', -, hint, hcon⟩ := h3 h hh
  have hss : s' = s := Option.some.inj (hs'.symm.trans hs)
  subst hss
  exact ⟨isInternal_spec m s' hint, hasConcaveCircularEdges_spec m s' hcon⟩

/-! ## Concrete instances for the hole/fillet claims -/

/-- One internal cylindrical face bounded by two semicircular edges: a
plain through-hole barrel. -/
def mSimpleHole : Model :=
  { attrs := [{ area := 100, is_planar := false, is_cylinder := true,
                is_torus := false,
                cylinder_axis := ⟨⟨0, 0, 0⟩, ⟨0, 0, 1⟩⟩, cylinder_radius := 5,
                torus_axis := default, torus_minor_radius := 0,
                torus_major_radius := 0,
                normal := ⟨-1, 0, 0⟩, plane_normal := ⟨0, 0, 0⟩ }],
    geom := [{ midPoint := ⟨5, 0, 0⟩, midNormalRaw := ⟨-1, 0, 0⟩,
               normalDefined := true, orientationReversed := false,
               edges := [⟨true, ⟨0, 0, 0⟩, 180⟩, ⟨true, ⟨0, 0, 10⟩, 180⟩] }],
    adj := buildAdjacency ⟨1, []⟩ }

lemma mSimpleHole_run :
    holeRecognize mSimpleHole [5] = [createSimpleHole mSimpleHole 0] := by
  norm_num [holeRecognize, holeStep, getCylindricalFaces, faceCount, attrAt,
    geomAt, mSimpleHole, isInternal, hasConcaveCircularEdges, holeSemiArc,
    holeQuarterArc, concentricWithAxis, isFullArc, correctedNormal, radialVec,
    Vec3.dot, Vec3.sub, Vec3.add, Vec3.smul, Vec3.cross, Vec3.normSq,
    List.countP_cons, List.range_succ, findCoaxialCylinders, visitCoaxial,
    getNeighbors, buildAdjacency, buildAdjStep, classifyEdge,
    List.foldl_cons, List.foldl_nil, List.filterMap_cons, List.filterMap_nil]

/-- Witness for C2 amended: the simple hole emitted on `mSimpleHole`
with exclusion set `[5]` has seed `0`, which is indeed not excluded. -/
theorem hole_seed_not_excluded_witness : (0 : ℕ) ∉ ([5] : List ℕ) :=
  hole_seed_not_excluded mSimpleHole [5] (createSimpleHole mSimpleHole 0)
    (by rw [mSimpleHole_run]; exact List.mem_singleton.mpr rfl) 0
    (by norm_num [createSimpleHole])

/-- Witness for C6: the seed of the hole emitted on `mSimpleHole`
satisfies the internality and edge-pattern conditions. -/
theorem hole_seed_guards_witness :
    (correctedNormal (geomAt mSimpleHole 0)).dot
      (radialVec (attrAt mSimpleHole 0).cylinder_axis
        (geomAt mSimpleHole 0).midPoint) < 0 ∧
    0 < (geomAt mSimpleHole 0).edges.countP
      (holeSemiArc (attrAt mSimpleHole 0).cylinder_axis) ∧
    (geomAt mSimpleHole 0).edges.countP
      (holeQuarterArc (attrAt mSimpleHole 0).cylinder_axis) = 0 :=
  hole_seed_guards mSimpleHole [5] (createSimpleHole mSimpleHole 0)
    (by rw [mSimpleHole_run]; exact List.mem_singleton.mpr rfl) 0
    (by norm_num [createSimpleHole])

/-- Two adjacent coaxial internal cylinders.  Face 0 is a hole barrel
(two semicircular rim edges); face 1 is a small internal cylindrical
blend carrying one quarter-circle edge, so the fillet recognizer claims
it. -/
def mHoleFillet : Model :=
  { attrs := [{ area := 100, is_planar := false, is_cylinder := true,
                is_torus := false,
                cylinder_axis := ⟨⟨0, 0, 0⟩, ⟨0, 0, 1⟩⟩, cylinder_radius := 5,
                torus_axis := default, torus_minor_radius := 0,
                torus_major_radius := 0,
                normal := ⟨-1, 0, 0⟩, plane_normal := ⟨0, 0, 0⟩ },
              { area := 20, is_planar := false, is_cylinder := true,
                is_torus := false,
                cylinder_axis := ⟨⟨0, 0, 20⟩, ⟨0, 0, 1⟩⟩, cylinder_radius := 6,
                torus_axis := default, torus_minor_radius := 0,
                torus_major_radius := 0,
                normal := ⟨-1, 0, 0⟩, plane_normal := ⟨0, 0, 0⟩ }],
    geom := [{ midPoint := ⟨5, 0, 0⟩, midNormalRaw := ⟨-1, 0, 0⟩,
               normalDefined := true, orientationReversed := false,
               edges := [⟨true, ⟨0, 0, 0⟩, 180⟩, ⟨true, ⟨0, 0, 10⟩, 180⟩] },
             { midPoint := ⟨6, 0, 20⟩, midNormalRaw := ⟨-1, 0, 0⟩,
               normalDefined := true, orientationReversed := false,
               edges := [⟨true, ⟨0, 0, 25⟩, 90⟩] }],
    adj := buildAdjacency ⟨2, [⟨[0, 1], 90⟩]⟩ }

lemma mHoleFillet_fillets :
    filletRecognize mHoleFillet 10 = [createFillet mHoleFillet 1 6] := by
  norm_num [filletRecognize, isFilletCandidate, hasQuarterCircleEdges,
    getFilletRadius, filletQuarterArc, isFullArc, getCylindricalFaces,
    getToroidalFaces, faceCount, attrAt, geomAt, mHoleFillet,
    List.range_succ, List.countP_cons]

lemma mHoleFillet_holes :
    holeRecognize mHoleFillet [1] = [createCounterboredHole mHoleFillet [0, 1]] := by
  norm_num [holeRecognize, holeStep, getCylindricalFaces, faceCount, attrAt,
    geomAt, mHoleFillet, isInternal, hasConcaveCircularEdges, holeSemiArc,
    holeQuarterArc, concentricWithAxis, isFullArc, correctedNormal, radialVec,
    Vec3.dot, Vec3.sub, Vec3.add, Vec3.smul, Vec3.cross, Vec3.normSq,
    List.countP_cons, List.range_succ, findCoaxialCylinders, visitCoaxial,
    getNeighbors, buildAdjacency, buildAdjStep, classifyEdge,
    areAxesCoincident, List.foldl_cons, List.foldl_nil, List.filterMap_cons,
    List.filterMap_nil]

/-- C2 counterexample.  On `mHoleFillet` the fillet recognizer emits a
fillet over face 1; passing the fillet face set as the exclusion set
(exactly as `Engine::run_feature_recognition` does), the hole
recognizer still emits a counterbored hole containing face 1, because
`FindCoaxialCylinders` never consults the exclusion set.  So face id 1
appears in both a fillet feature and a hole feature of the same run. -/
theorem hole_fillet_share_face :
    (∃ ff ∈ filletRecognize mHoleFillet 10, 1 ∈ ff.face_ids) ∧
    (∃ hf ∈ holeRecognize mHoleFillet
        ((filletRecognize mHoleFillet 10).flatMap Feature.face_ids),
      1 ∈ hf.face_ids) := by
  have hF : (filletRecognize mHoleFillet 10).flatMap Feature.face_ids = [1] := by
    rw [mHoleFillet_fillets]
    norm_num [createFillet, attrAt, mHoleFillet]
  constructor
  · refine ⟨createFillet mHoleFillet 1 6, ?_, ?_⟩
    · rw [mHoleFillet_fillets]; exact List.mem_singleton.mpr rfl
    · norm_num [createFillet, attrAt, mHoleFillet]
  · refine ⟨createCounterboredHole mHoleFillet [0, 1], ?_, ?_⟩
    · rw [hF, mHoleFillet_holes]; exact List.mem_singleton.mpr rfl
    · norm_num [createCounterboredHole]

end Palmetto


namespace Palmetto

/-! ## C5: the fillet acceptance condition -/

lemma createFillet_faces (m : Model) (f : ℕ) (r : ℚ) :
    (createFillet m f r).face_ids = [f] := by
  unfold createFillet
  simp only []
  split_ifs <;> rfl

lemma filletQuarterArc_iff (e : EdgeGeom) :
    filletQuarterArc e = true ↔
      e.isCircle = true ∧ isFullArc e = false ∧ |e.arcDeg - 90| < 5 := by
  unfold filletQuarterArc
  simp [Bool.not_eq_true]

lemma isFilletCandidate_iff (m : Model) (max_radius : ℚ) (g : ℕ) :
    isFilletCandidate m g max_radius = true ↔
      (((attrAt m g).is_cylinder = true ∨ (attrAt m g).is_torus = true) ∧
       (if (attrAt m g).is_cylinder then (attrAt m g).cylinder_radius
        else (attrAt m g).torus_minor_radius) ≤ max_radius ∧
       ∃ e ∈ (geomAt m g).edges,
         e.isCircle = true ∧ isFullArc e = false ∧ |e.arcDeg - 90| < 5) := by
  unfold isFilletCandidate hasQuarterCircleEdges
  simp only []
  by_cases hk : ¬(attrAt m g).is_cylinder = true ∧ ¬(attrAt m g).is_torus = true
  · rw [if_pos hk]
    simp only [Bool.false_eq_true, false_iff]
    rintro ⟨hkind, -⟩
    rcases hkind with h | h
    · exact hk.1 h
    · exact hk.2 h
  · rw [if_neg hk]
    have hkind : (attrAt m g).is_cylinder = true ∨ (attrAt m g).is_torus = true := by
      tauto
    by_cases hr : (if (attrAt m g).is_cylinder then (attrAt m g).cylinder_radius
        else (attrAt m g).torus_minor_radius) > max_radius
    · rw [if_pos hr]
      simp only [Bool.false_eq_true, false_iff]
      rintro ⟨-, hle, -⟩
      exact absurd hle (not_le.mpr hr)
    · rw [if_neg hr, if_neg hk]
      rw [decide_eq_true_eq, gt_iff_lt, List.countP_pos_iff]
      constructor
      · rintro ⟨e, he, hpe⟩
        exact ⟨hkind, not_lt.mp hr, e, he, (filletQuarterArc_iff e).mp hpe⟩
      · rintro ⟨-, -, e, he, hq⟩
        exact ⟨e, he, (filletQuarterArc_iff e).mpr hq⟩

/-- C5 amended.  A face is emitted as a fillet iff it is cylindrical or
toroidal, its radius (cylinder radius or torus minor radius) is at most
the maximum, and it has at least one quarter-circle edge (a circular
arc, not a full circle, within 5° of 90°).  Full-circle edges merely do
not count as quarter-circles; their *presence* does not disqualify the
face, contrary to the original claim (see the C5 counterexample
below). -/
theorem fillet_emitted_iff (m : Model) (max_radius : ℚ) (f : ℕ) :
    (∃ feat ∈ filletRecognize m max_radius, f ∈ feat.face_ids) ↔
      (f < faceCount m ∧
       ((attrAt m f).is_cylinder = true ∨ (attrAt m f).is_torus = true) ∧
       (if (attrAt m f).is_cylinder then (attrAt m f).cylinder_radius
        else (attrAt m f).torus_minor_radius) ≤ max_radius ∧
       ∃ e ∈ (geomAt m f).edges,
         e.isCircle = true ∧ isFullArc e = false ∧ |e.arcDeg - 90| < 5) := by
  constructor
  · rintro ⟨feat, hfeat, hf⟩
    rcases List.mem_append.mp hfeat with hm | hm
    · obtain ⟨g, hg, rfl⟩ := List.mem_map.mp hm
      obtain ⟨hgin, hgcand⟩ := List.mem_filter.mp hg
      have hfg : f = g := by
        rw [createFillet_faces] at hf
        simpa using hf
      subst hfg
      obtain ⟨hrange, -⟩ := List.mem_filter.mp
        (show f ∈ (List.range (faceCount m)).filter
          (fun i => (attrAt m i).is_cylinder) from hgin)
      exact ⟨List.mem_range.mp hrange,
        (isFilletCandidate_iff m max_radius f).mp hgcand⟩
    · obtain ⟨g, hg, rfl⟩ := List.mem_map.mp hm
      obtain ⟨hgin, hgcand⟩ := List.mem_filter.mp hg
      have hfg : f = g := by
        rw [createFillet_faces] at hf
        simpa using hf
      subst hfg
      obtain ⟨hrange, -⟩ := List.mem_filter.mp
        (show f ∈ (List.range (faceCount m)).filter
          (fun i => (attrAt m i).is_torus) from hgin)
      exact ⟨List.mem_range.mp hrange,
        (isFilletCandidate_iff m max_radius f).mp hgcand⟩
  · rintro ⟨hlt, hkind, hrest⟩
    have hc : isFilletCandidate m f max_radius = true :=
      (isFilletCandidate_iff m max_radius f).mpr ⟨hkind, hrest⟩
    by_cases hcy : (attrAt m f).is_cylinder = true
    · refine ⟨createFillet m f (getFilletRadius m f), ?_, ?_⟩
      · refine List.mem_append_left _ (List.mem_map.mpr ⟨f, ?_, rfl⟩)
        refine List.mem_filter.mpr ⟨?_, hc⟩
        unfold getCylindricalFaces
        exact List.mem_filter.mpr ⟨List.mem_range.mpr hlt, by simpa using hcy⟩
      · rw [createFillet_faces]; exact List.mem_singleton.mpr rfl
    · have htor : (attrAt m f).is_torus = true := by tauto
      refine ⟨createFillet m f (getFilletRadius m f), ?_, ?_⟩
      · refine List.mem_append_right _ (List.mem_map.mpr ⟨f, ?_, rfl⟩)
        refine List.mem_filter.mpr ⟨?_, hc⟩
        unfold getToroidalFaces
        exact List.mem_filter.mpr ⟨List.mem_range.mpr hlt, by simpa using htor⟩
      · rw [createFillet_faces]; exact List.mem_singleton.mpr rfl

end Palmetto

namespace Palmetto

/-- The fillet condition exactly as the specification words it
(spec §4.3.2 / claim C5): cylindrical or toroidal, radius at most the
maximum, at least one quarter-circle edge, *and no full-circle edges*.
This definition follows the spec's sentence, to be compared with the
source-derived `isFilletCandidate`. -/
def specFilletCondition (m : Model) (f : ℕ) (max_radius : ℚ) : Prop :=
  ((attrAt m f).is_cylinder = true ∨ (attrAt m f).is_torus = true) ∧
  (if (attrAt m f).is_cylinder then (attrAt m f).cylinder_radius
   else (attrAt m f).torus_minor_radius) ≤ max_radius ∧
  (∃ e ∈ (geomAt m f).edges,
    e.isCircle = true ∧ isFullArc e = false ∧ |e.arcDeg - 90| < 5) ∧
  (∀ e ∈ (geomAt m f).edges, ¬(e.isCircle = true ∧ isFullArc e = true))

/-- A small cylindrical face bounded by one full circle and one
quarter-circle arc (e.g. a rolled edge ending on a closed rim). -/
def mFullCircle : Model :=
  { attrs := [{ area := 10, is_planar := false, is_cylinder := true,
                is_torus := false,
                cylinder_axis := ⟨⟨0, 0, 0⟩, ⟨0, 0, 1⟩⟩, cylinder_radius := 2,
                torus_axis := default, torus_minor_radius := 0,
                torus_major_radius := 0,
                normal := ⟨1, 0, 0⟩, plane_normal := ⟨0, 0, 0⟩ }],
    geom := [{ midPoint := ⟨2, 0, 0⟩, midNormalRaw := ⟨1, 0, 0⟩,
               normalDefined := true, orientationReversed := false,
               edges := [⟨true, ⟨0, 0, 0⟩, 360⟩, ⟨true, ⟨0, 0, 2⟩, 90⟩] }],
    adj := buildAdjacency ⟨1, []⟩ }

/-- C5 counterexample.  On `mFullCircle` the face has a full-circle
edge, so the claim's condition fails for it; yet the fillet recognizer
emits a fillet for it, because `HasQuarterCircleEdges` only skips full
circles when counting and never rejects the face for having one. -/
theorem fillet_with_full_circle :
    (∃ feat ∈ filletRecognize mFullCircle 10, 0 ∈ feat.face_ids) ∧
    ¬ specFilletCondition mFullCircle 0 10 := by
  constructor
  · have hrun : filletRecognize mFullCircle 10 =
        [createFillet mFullCircle 0 2] := by
      norm_num [filletRecognize, isFilletCandidate, hasQuarterCircleEdges,
        getFilletRadius, filletQuarterArc, isFullArc, getCylindricalFaces,
        getToroidalFaces, faceCount, attrAt, geomAt, mFullCircle,
        List.range_succ, List.countP_cons]
    refine ⟨createFillet mFullCircle 0 2, ?_, ?_⟩
    · rw [hrun]; exact List.mem_singleton.mpr rfl
    · norm_num [createFillet, attrAt, mFullCircle]
  · rintro ⟨-, -, -, hnone⟩
    refine hnone ⟨true, ⟨0, 0, 0⟩, 360⟩ ?_ ⟨rfl, ?_⟩
    · norm_num [geomAt, mFullCircle]
    · norm_num [isFullArc]

end Palmetto

namespace Palmetto

/-! ## C8: feature-id generation

Each recognizer builds its feature id from a per-type static counter.
`hole_recognizer.cpp:280`, `fillet_recognizer.cpp:246`,
`chamfer_recognizer.cpp:209`, `cavity_recognizer.cpp:274` and
`thin_wall_recognizer.cpp:526` stream
`"<type>_" << std::setfill('0') << std::setw(4) << counter`;
`thin_wall_recognizer_v2.cpp:407` instead concatenates
`"thin_wall_" + std::to_string(counter)`. -/

/-- `std::setfill('0') << std::setw(4)` applied to the decimal digits
of a counter: pad on the left with `'0'` up to width 4 (wider values
print unpadded). -/
def pad4 (n : ℕ) : String :=
  String.mk (List.replicate (4 - (Nat.repr n).length) '0') ++ Nat.repr n

/-- `HoleRecognizer::CreateSimpleHole` / `CreateCounterboredHole` id. -/
def holeFeatureId (c : ℕ) : String := "hole_" ++ pad4 c

/-- `FilletRecognizer::CreateFillet` id. -/
def filletFeatureId (c : ℕ) : String := "fillet_" ++ pad4 c

/-- `ChamferRecognizer::CreateChamfer` id. -/
def chamferFeatureId (c : ℕ) : String := "chamfer_" ++ pad4 c

/-- `CavityRecognizer::CreateCavity` id. -/
def cavityFeatureId (c : ℕ) : String := "cavity_" ++ pad4 c

/-- `ThinWallRecognizer::CreateFeature` (v1) id. -/
def thinWallV1FeatureId (c : ℕ) : String := "thin_wall_" ++ pad4 c

/-- `ThinWallRecognizerV2::CreateFeature` id
(`"thin_wall_" + std::to_string(feature_id_counter_++)`). -/
def thinWallV2FeatureId (c : ℕ) : String := "thin_wall_" ++ Nat.repr c

lemma pad4_length (c : ℕ) (hc : c < 10000) : (pad4 c).length = 4 := by
  have hle : (Nat.repr c).length ≤ 4 := Nat.repr_length c 4 (by norm_num) hc
  unfold pad4
  rw [String.length_append]
  simp [Nat.sub_add_cancel hle]

/-- C8 amended.  For counter values below 10000, the hole, fillet,
chamfer, cavity and thin-wall-v1 recognizers produce ids of the form
`"<type>_####"`: the type name, an underscore, then exactly four
zero-padded decimal digits.  The thin-wall **v2** recognizer (the
canonical variant) does not: it appends the unpadded decimal counter
(see the C8 counterexample below). -/
theorem feature_id_padded (c : ℕ) (hc : c < 10000) :
    (pad4 c).length = 4 ∧
    (holeFeatureId c).length = 9 ∧
    (filletFeatureId c).length = 11 ∧
    (chamferFeatureId c).length = 12 ∧
    (cavityFeatureId c).length = 11 ∧
    (thinWallV1FeatureId c).length = 14 := by
  have h4 := pad4_length c hc
  refine ⟨h4, ?_, ?_, ?_, ?_, ?_⟩ <;>
    first
    | (unfold holeFeatureId; rw [String.length_append, h4]; rfl)
    | (unfold filletFeatureId; rw [String.length_append, h4]; rfl)
    | (unfold chamferFeatureId; rw [String.length_append, h4]; rfl)
    | (unfold cavityFeatureId; rw [String.length_append, h4]; rfl)
    | (unfold thinWallV1FeatureId; rw [String.length_append, h4]; rfl)

/-- Witness for C8 amended at counter 7 (`pad4 7 = "0007"`). -/
theorem feature_id_padded_witness :
    (7 : ℕ) < 10000 ∧ pad4 7 = "0007" ∧ holeFeatureId 7 = "hole_0007" ∧
    (pad4 7).length = 4 ∧ (holeFeatureId 7).length = 9 ∧
    (filletFeatureId 7).length = 11 ∧ (chamferFeatureId 7).length = 12 ∧
    (cavityFeatureId 7).length = 11 ∧ (thinWallV1FeatureId 7).length = 14 := by
  have h := feature_id_padded 7 (by decide)
  exact ⟨by decide, by decide, by decide, h.1, h.2.1, h.2.2.1, h.2.2.2.1,
    h.2.2.2.2.1, h.2.2.2.2.2⟩

/-- C8 counterexample.  The very first thin-wall feature of a run (v2,
counter 0) gets id `"thin_wall_0"`, which is not the zero-padded
four-digit form `"thin_wall_0000"`. -/
theorem thin_wall_v2_id_unpadded :
    thinWallV2FeatureId 0 = "thin_wall_0" ∧
    thinWallV2FeatureId 0 ≠ "thin_wall_" ++ pad4 0 ∧
    (thinWallV2FeatureId 0).length ≠ "thin_wall_".length + 4 := by
  refine ⟨by decide, by decide, by decide⟩

end Palmetto


namespace Palmetto

/-! ## C7: dense SDF voxel thickness (`sdf_generator.cpp:162-219`)

One voxel of `SDFGenerator::GenerateSDF`.  A ray direction is modelled
by the list of intersection parameters the geometry yields along it
(`IntCurvesFace_ShapeIntersector` reports those within `[0, t_max]`,
modelled by filtering at `t_max`).  The inner loop keeps the closest
parameter `> 0.01`; the outer loop over the six directions keeps the
running minimum, with the early-termination break after the third
direction (`dir >= 2`) once the minimum exceeds `0.8 · max`. -/

/-- The inner intersection loop (sdf_generator.cpp:181-188):
`closest` starts at the cap and is lowered by every parameter
`> 0.01` below it. -/
def runMin (c : ℚ) (l : List ℚ) : ℚ :=
  l.foldl (fun closest p => if 1 / 100 < p ∧ p < closest then p else closest) c

/-- Distance reported for one direction with search cap `M`
(sdf_generator.cpp:176-189). -/
def dirDistance (M : ℚ) (hits : List ℚ) : ℚ :=
  runMin M (hits.filter (fun p => p ≤ M))

/-- The direction loop (sdf_generator.cpp:167-203): state is the
running `min_distance` (initially `max_search_distance`) and the
0-based direction index; `distance > 0 && distance < min_distance`
lowers the minimum; `dir >= 2 && min_distance > max * 0.8` breaks. -/
def sdfScan (M : ℚ) : List (List ℚ) → ℕ → ℚ → ℚ
  | [], _, minD => minD
  | h :: t, dir, minD =>
      let distance := dirDistance M h
      let minD' := if 0 < distance ∧ distance < minD then distance else minD
      if 2 ≤ dir ∧ 8 / 10 * M < minD' then minD'
      else sdfScan M t (dir + 1) minD'

/-- Thickness recorded for one voxel (sdf_generator.cpp:162-219):
`-1` outside; inside, `2 · min_distance` when a hit below the cap was
found, else `-1`.  The source condition is
`found_hit && min_distance < max_search_distance`; `found_hit` is set
exactly by the assignments that lower a closest/minimum below the cap,
so it holds iff `min_distance < max_search_distance`, and the model
uses that single comparison. -/
def voxelThickness (inside : Bool) (hits : List (List ℚ)) (M : ℚ) : ℚ :=
  if inside then
    let minD := sdfScan M hits 0 M
    if minD < M then 2 * minD else -1
  else -1

lemma runMin_cons (c q : ℚ) (t : List ℚ) :
    runMin c (q :: t) = runMin (if 1 / 100 < q ∧ q < c then q else c) t := rfl

lemma runMin_le_init (l : List ℚ) : ∀ c, runMin c l ≤ c := by
  induction l with
  | nil => intro c; exact le_refl c
  | cons q t ih =>
      intro c
      rw [runMin_cons]
      split_ifs with h
      · exact le_trans (ih q) (le_of_lt h.2)
      · exact ih c

lemma runMin_le_mem (l : List ℚ) :
    ∀ c, ∀ p ∈ l, 1 / 100 < p → runMin c l ≤ p := by
  induction l with
  | nil => intro c p hp; exact absurd hp (List.not_mem_nil p)
  | cons q t ih =>
      intro c p hp hq
      rw [runMin_cons]
      rcases List.mem_cons.mp hp with rfl | hpt
      · split_ifs with h
        · exact runMin_le_init t p
        · have hcq : c ≤ p := by
            by_contra hlt
            exact h ⟨hq, not_le.mp hlt⟩
          exact le_trans (runMin_le_init t c) hcq
      · split_ifs with h
        · exact ih q p hpt hq
        · exact ih c p hpt hq

lemma runMin_cases (l : List ℚ) :
    ∀ c, runMin c l = c ∨
      ∃ p ∈ l, 1 / 100 < p ∧ p < c ∧ runMin c l = p := by
  induction l with
  | nil => intro c; exact Or.inl rfl
  | cons q t ih =>
      intro c
      rw [runMin_cons]
      split_ifs with h
      · rcases ih q with heq | ⟨p, hpt, hp1, hpq, heq⟩
        · exact Or.inr ⟨q, List.mem_cons_self q t, h.1, h.2, heq⟩
        · exact Or.inr ⟨p, List.mem_cons_of_mem q hpt, hp1,
            lt_trans hpq h.2, heq⟩
      · rcases ih c with heq | ⟨p, hpt, hp1, hpc, heq⟩
        · exact Or.inl heq
        · exact Or.inr ⟨p, List.mem_cons_of_mem q hpt, hp1, hpc, heq⟩

lemma dirDistance_le (M : ℚ) (hits : List ℚ) : dirDistance M hits ≤ M :=
  runMin_le_init _ M

lemma dirDistance_pos (M : ℚ) (hits : List ℚ) (hM : 0 < M) :
    0 < dirDistance M hits := by
  rcases runMin_cases (hits.filter (fun p => p ≤ M)) M with heq |
    ⟨p, -, hp1, -, heq⟩
  · rw [dirDistance, heq]; exact hM
  · rw [dirDistance, heq]
    exact lt_trans (by norm_num) hp1

lemma dirDistance_hit (M : ℚ) (hits : List ℚ)
    (h : dirDistance M hits < M) :
    ∃ p ∈ hits, 1 / 100 < p ∧ p < M ∧ dirDistance M hits = p := by
  rcases runMin_cases (hits.filter (fun p => p ≤ M)) M with heq |
    ⟨p, hpf, hp1, hpM, heq⟩
  · have hd : dirDistance M hits = M := heq
    rw [hd] at h
    exact absurd h (lt_irrefl M)
  · exact ⟨p, (List.mem_filter.mp hpf).1, hp1, hpM, heq⟩

lemma dirDistance_le_hit (M : ℚ) (hits : List ℚ) (p : ℚ) (hp : p ∈ hits)
    (hp1 : 1 / 100 < p) (hpM : p ≤ M) : dirDistance M hits ≤ p :=
  runMin_le_mem _ M p (List.mem_filter.mpr ⟨hp, decide_eq_true hpM⟩) hp1

/-- If the capped search found a hit, raising the cap can only lower
the reported direction distance. -/
lemma dirDistance_mono (M M' : ℚ) (hMM : M ≤ M') (hits : List ℚ)
    (h : dirDistance M hits < M) : dirDistance M' hits ≤ dirDistance M hits := by
  obtain ⟨p, hp, hp1, hpM, heq⟩ := dirDistance_hit M hits h
  rw [heq]
  exact dirDistance_le_hit M' hits p hp hp1 (le_trans (le_of_lt hpM) hMM)

lemma sdfScan_cons (M : ℚ) (h : List ℚ) (t : List (List ℚ)) (i : ℕ) (a : ℚ) :
    sdfScan M (h :: t) i a =
      (if 2 ≤ i ∧ 8 / 10 * M <
          (if 0 < dirDistance M h ∧ dirDistance M h < a
            then dirDistance M h else a)
        then (if 0 < dirDistance M h ∧ dirDistance M h < a
            then dirDistance M h else a)
        else sdfScan M t (i + 1)
          (if 0 < dirDistance M h ∧ dirDistance M h < a
            then dirDistance M h else a)) := rfl

lemma sdfScan_le (M : ℚ) (l : List (List ℚ)) :
    ∀ i a, sdfScan M l i a ≤ a := by
  induction l with
  | nil => intro i a; exact le_refl a
  | cons h t ih =>
      intro i a
      rw [sdfScan_cons]
      have h1 : (if 0 < dirDistance M h ∧ dirDistance M h < a
          then dirDistance M h else a) ≤ a := by
        split_ifs with hu
        · exact le_of_lt hu.2
        · exact le_refl a
      split_ifs with hu hb hb
      · exact le_of_lt hu.2
      · exact le_trans (ih (i + 1) _) (le_of_lt hu.2)
      · exact le_refl a
      · exact ih (i + 1) a
  -- (the two `split_ifs` conditions: the inner update and the break)

lemma sdfScan_pos (M : ℚ) (l : List (List ℚ)) :
    ∀ i a, 0 < a → 0 < sdfScan M l i a := by
  induction l with
  | nil => intro i a ha; exact ha
  | cons h t ih =>
      intro i a ha
      rw [sdfScan_cons]
      split_ifs with hu hb hb
      · exact hu.1
      · exact ih (i + 1) _ hu.1
      · exact ha
      · exact ih (i + 1) a ha

/-- Core simulation: run the direction loop with caps `M ≤ M'` from
running minima `a` (at `M`) and `b` (at `M'`).  If the `M`-run ends
below its cap, the `M'`-run ends no higher. -/
lemma sdfScan_mono (M M' : ℚ) (hM : 0 < M) (hMM : M ≤ M')
    (l : List (List ℚ)) :
    ∀ i a b, a ≤ M → (a < M → b ≤ a) → sdfScan M l i a < M →
      sdfScan M' l i b ≤ sdfScan M l i a := by
  have hM' : 0 < M' := lt_of_lt_of_le hM hMM
  induction l with
  | nil =>
      intro i a b _ hI2 hres
      exact hI2 hres
  | cons h t ih =>
      intro i a b haM hI2 hres
      have ha'a : (if 0 < dirDistance M h ∧ dirDistance M h < a
          then dirDistance M h else a) ≤ a := by
        split_ifs with hu
        · exact le_of_lt hu.2
        · exact le_refl a
      have hb'b : (if 0 < dirDistance M' h ∧ dirDistance M' h < b
          then dirDistance M' h else b) ≤ b := by
        split_ifs with hu
        · exact le_of_lt hu.2
        · exact le_refl b
      set dM := dirDistance M h with hdM
      set dM' := dirDistance M' h with hdM'
      set a' := if 0 < dM ∧ dM < a then dM else a with ha'
      set b' := if 0 < dM' ∧ dM' < b then dM' else b with hb'
      have ha'M : a' ≤ M := le_trans ha'a haM
      have hK : a' < M → b' ≤ a' := by
        intro ha'ltM
        rw [ha'] at ha'ltM ⊢
        by_cases hu : 0 < dM ∧ dM < a
        · rw [if_pos hu] at ha'ltM ⊢
          have hdmono : dM' ≤ dM := dirDistance_mono M M' hMM h ha'ltM
          rw [hb']
          split_ifs with hv
          · exact hdmono
          · have hble : b ≤ dM' := by
              rcases not_and_or.mp hv with hc | hc
              · exact absurd (dirDistance_pos M' h hM') hc
              · exact not_lt.mp hc
            exact le_trans hble hdmono
        · rw [if_neg hu] at ha'ltM ⊢
          exact le_trans hb'b (hI2 ha'ltM)
      rw [sdfScan_cons M h t i a, ← hdM, ← ha'] at hres ⊢
      rw [sdfScan_cons M' h t i b, ← hdM', ← hb']
      by_cases hbrkM : 2 ≤ i ∧ 8 / 10 * M < a'
      · -- the M-run breaks: its result is a'
        rw [if_pos hbrkM] at hres ⊢
        have hb'a' : b' ≤ a' := hK hres
        split_ifs with hbrk'
        · exact hb'a'
        · exact le_trans (sdfScan_le M' t (i + 1) b') hb'a'
      · -- the M-run continues
        rw [if_neg hbrkM] at hres ⊢
        have hbrk' : ¬(2 ≤ i ∧ 8 / 10 * M' < b') := by
          rintro ⟨hi, hgt⟩
          have ha'08 : a' ≤ 8 / 10 * M := by
            by_contra hgt'
            exact hbrkM ⟨hi, not_le.mp hgt'⟩
          have ha'M' : a' < M := lt_of_le_of_lt ha'08 (by nlinarith)
          have hb08 : b' ≤ 8 / 10 * M' :=
            le_trans (hK ha'M') (le_trans ha'08 (by nlinarith))
          exact absurd hgt (not_lt.mpr hb08)
        rw [if_neg hbrk']
        exact ih (i + 1) a' b' ha'M hK hres

/-- C7.  For a fixed inside-classification and fixed per-direction
intersection geometry, increasing `max_search_distance` is monotone:
a voxel that reported `thickness ≥ 0` at the smaller cap still does at
the larger cap, and its reported value does not increase — despite the
early-termination rule that stops after three rays when the running
minimum exceeds `0.8 · max_search_distance`. -/
theorem sdf_thickness_monotone (inside : Bool) (hits : List (List ℚ))
    (M M' : ℚ) (hM : 0 < M) (hMM : M ≤ M')
    (h : 0 ≤ voxelThickness inside hits M) :
    0 ≤ voxelThickness inside hits M' ∧
      voxelThickness inside hits M' ≤ voxelThickness inside hits M := by
  have hM' : 0 < M' := lt_of_lt_of_le hM hMM
  cases inside with
  | false =>
      exfalso
      have hfalse : voxelThickness false hits M = -1 := rfl
      rw [hfalse] at h
      norm_num at h
  | true =>
      have hunf : ∀ K : ℚ, voxelThickness true hits K =
          if sdfScan K hits 0 K < K then 2 * sdfScan K hits 0 K else -1 :=
        fun K => rfl
      rw [hunf] at h
      rw [hunf, hunf]
      by_cases hv : sdfScan M hits 0 M < M
      · rw [if_pos hv] at h ⊢
        have hscan : sdfScan M' hits 0 M' ≤ sdfScan M hits 0 M := by
          refine sdfScan_mono M M' hM hMM hits 0 M M' (le_refl M) ?_ hv
          intro hMltM
          exact absurd hMltM (lt_irrefl M)
        have hv' : sdfScan M' hits 0 M' < M' :=
          lt_of_le_of_lt hscan (lt_of_lt_of_le hv hMM)
        rw [if_pos hv']
        have hpos := sdfScan_pos M' hits 0 M' hM'
        constructor
        · linarith
        · linarith
      · rw [if_neg hv] at h
        norm_num at h

/-- Witness for C7: six directions with one hit at `0.9` (direction 0)
and one at `0.1` (direction 3); cap 1 breaks early after three rays and
reports `1.8`, cap 2 sees direction 3 and reports `0.2 ≤ 1.8`. -/
theorem sdf_thickness_monotone_witness :
    (0 : ℚ) < 1 ∧ (1 : ℚ) ≤ 2 ∧
    0 ≤ voxelThickness true [[9/10], [], [], [1/10], [], []] 1 ∧
    (0 ≤ voxelThickness true [[9/10], [], [], [1/10], [], []] 2 ∧
      voxelThickness true [[9/10], [], [], [1/10], [], []] 2 ≤
        voxelThickness true [[9/10], [], [], [1/10], [], []] 1) :=
  ⟨by norm_num, by norm_num,
    by norm_num [voxelThickness, sdfScan, dirDistance, runMin],
    sdf_thickness_monotone true [[9/10], [], [], [1/10], [], []] 1 2
      (by norm_num) (by norm_num)
      (by norm_num [voxelThickness, sdfScan, dirDistance, runMin])⟩

end Palmetto

namespace Palmetto

/-! ## C9: molding accessibility (`accessibility_analyzer.cpp`)

Per-face data of `AccessibilityAnalyzer`: the surface centroid
(`GetFaceCentroid`) and the orientation-corrected mid-parameter normal
(`GetFaceNormal`), both computed by the kernel.  The ray tracer is the
external Embree interface: a function from origin, direction and
maximum distance to the nearest hit distance, or `-1` when nothing is
hit within the maximum. -/

structure AccFace where
  centroid : Vec3
  normal : Vec3
deriving DecidableEq, Repr, Inhabited

/-- `AccessibilityAnalyzer::IsFaceAccessibleFromDirection`
(accessibility_analyzer.cpp:185-218): reject faces whose normal points
away from the query direction (`dot > 0`), then cast a ray from the
centroid offset by `0.1 · normal` along the *reversed* query direction
with `max_distance = 1000`; accessible iff the tracer reports no hit
(`hit_distance < 0`). -/
def isFaceAccessibleFromDirection (castRay : Vec3 → Vec3 → ℚ → ℚ)
    (face : AccFace) (direction : Vec3) : Bool :=
  if 0 < face.normal.dot direction then false
  else
    let ray_start := face.centroid.add (Vec3.smul (1 / 10) face.normal)
    let ray_dir := direction.neg
    decide (castRay ray_start ray_dir 1000 < 0)

/-- `AccessibilityAnalyzer::ComputeShadowVolume`
(accessibility_analyzer.cpp:237-272) membership test for face `i`:
some other face's centroid is ahead by more than `0.5` along the
direction with lateral offset below `10` (`lateral.Magnitude() < 10`
embedded squared as `‖lateral‖² < 100`). -/
def inShadow (faces : List AccFace) (direction : Vec3) (i : ℕ) : Bool :=
  (List.range faces.length).any fun j =>
    if j = i then false
    else
      let vij := (faces.getD j default).centroid.sub
        (faces.getD i default).centroid
      let proj := vij.dot direction
      if 1 / 2 < proj then
        let lateral := vij.sub (Vec3.smul proj direction)
        decide (lateral.normSq < 100)
      else false

/-- The undercut decision of
`AccessibilityAnalyzer::AnalyzeMoldingAccessibility`
(accessibility_analyzer.cpp:53-91).  The source computes
`draft_angle = 90° − acos(clamp(n·d))·180/π` and tests
`draft_angle < 0`; since `acos` is strictly decreasing,
`draft_angle < 0 ⟺ n·d < 0`, which is how the model expresses the
test (the unit `gp_Dir` normalisation affects only the sign-irrelevant
magnitude). -/
def moldingUndercut (castRay : Vec3 → Vec3 → ℚ → ℚ) (faces : List AccFace)
    (d : Vec3) (i : ℕ) : Bool :=
  let face := faces.getD i default
  let draft_negative := decide (face.normal.dot d < 0)
  let accessible := isFaceAccessibleFromDirection castRay face d.neg
  let is_in_shadow := inShadow faces d i
  draft_negative || is_in_shadow || !accessible

lemma Vec3.neg_neg (v : Vec3) : v.neg.neg = v := by
  rcases v with ⟨x, y, z⟩
  simp [Vec3.neg]

lemma Vec3.dot_neg_right (a b : Vec3) : a.dot b.neg = -(a.dot b) := by
  rcases a with ⟨ax, ay, az⟩
  rcases b with ⟨bx, by_, bz⟩
  simp [Vec3.dot, Vec3.neg]
  ring

/-- C9 amended.  With draft direction `d`, the code's face accessibility
(the call `IsFaceAccessibleFromDirection(face, d.Reversed())`) holds iff
the orientation-corrected normal satisfies `n · d ≥ 0` *and* the ray
from `c + 0.1·n` cast in direction `+d` (not `−d`: the helper reverses
its argument again) reaches the maximum distance unhit; and a face is
an undercut iff its draft angle is negative (`n · d < 0`), or it is in
the shadow set, or it fails that accessibility test. -/
theorem molding_accessibility_characterization
    (castRay : Vec3 → Vec3 → ℚ → ℚ) (faces : List AccFace) (d : Vec3)
    (i : ℕ) :
    (isFaceAccessibleFromDirection castRay (faces.getD i default) d.neg = true ↔
      (0 ≤ (faces.getD i default).normal.dot d ∧
        castRay ((faces.getD i default).centroid.add
          (Vec3.smul (1 / 10) (faces.getD i default).normal)) d 1000 < 0)) ∧
    (moldingUndercut castRay faces d i = true ↔
      ((faces.getD i default).normal.dot d < 0 ∨ inShadow faces d i = true ∨
        isFaceAccessibleFromDirection castRay (faces.getD i default) d.neg
          = false)) := by
  constructor
  · unfold isFaceAccessibleFromDirection
    rw [Vec3.dot_neg_right, Vec3.neg_neg]
    constructor
    · intro h
      split_ifs at h with hlt
      push_neg at hlt
      refine ⟨by linarith, ?_⟩
      exact of_decide_eq_true h
    · rintro ⟨hge, hray⟩
      rw [if_neg (by intro hlt; linarith)]
      exact decide_eq_true hray
  · unfold moldingUndercut
    simp only [Bool.or_eq_true, decide_eq_true_eq, Bool.not_eq_true']
    tauto

/-- Witness for the amended C9 characterisation at a concrete
configuration: one face with normal `+Z`, draft `+Z`, tracer reporting
no hit (ray escapes), so the face is accessible and not an undercut. -/
theorem molding_accessibility_characterization_witness :
    (isFaceAccessibleFromDirection (fun _ _ _ => -1)
        (([⟨⟨0, 0, 0⟩, ⟨0, 0, 1⟩⟩] : List AccFace).getD 0 default)
        (Vec3.neg ⟨0, 0, 1⟩) = true ↔
      (0 ≤ (([⟨⟨0, 0, 0⟩, ⟨0, 0, 1⟩⟩] : List AccFace).getD 0
          default).normal.dot ⟨0, 0, 1⟩ ∧
        (fun (_ : Vec3) (_ : Vec3) (_ : ℚ) => (-1 : ℚ))
          ((([⟨⟨0, 0, 0⟩, ⟨0, 0, 1⟩⟩] : List AccFace).getD 0
            default).centroid.add
          (Vec3.smul (1 / 10) (([⟨⟨0, 0, 0⟩, ⟨0, 0, 1⟩⟩] :
            List AccFace).getD 0 default).normal)) ⟨0, 0, 1⟩ 1000 < 0)) ∧
    (moldingUndercut (fun _ _ _ => -1) [⟨⟨0, 0, 0⟩, ⟨0, 0, 1⟩⟩]
        ⟨0, 0, 1⟩ 0 = true ↔
      ((([⟨⟨0, 0, 0⟩, ⟨0, 0, 1⟩⟩] : List AccFace).getD 0
          default).normal.dot ⟨0, 0, 1⟩ < 0 ∨
        inShadow [⟨⟨0, 0, 0⟩, ⟨0, 0, 1⟩⟩] ⟨0, 0, 1⟩ 0 = true ∨
        isFaceAccessibleFromDirection (fun _ _ _ => -1)
          (([⟨⟨0, 0, 0⟩, ⟨0, 0, 1⟩⟩] : List AccFace).getD 0 default)
          (Vec3.neg ⟨0, 0, 1⟩) = false)) :=
  molding_accessibility_characterization (fun _ _ _ => -1)
    [⟨⟨0, 0, 0⟩, ⟨0, 0, 1⟩⟩] ⟨0, 0, 1⟩ 0

/-- C9 counterexample.  A single face with outward normal `−Z` under
draft direction `+Z`, with a tracer that reports no hit along `−Z` (the
claim's ray direction) and a hit at `0.1` along every other direction
(the face itself blocks the upward ray).  The claim says the face is
ray-accessible (its `−d` ray escapes); the code says it is not: the
facing check `n · (−d) > 0` rejects it before any ray is cast, and the
ray the code would cast goes along `+d`. -/
theorem molding_accessible_mismatch :
    ((fun _ dir _ => if dir = (⟨0, 0, -1⟩ : Vec3) then (-1 : ℚ) else 1 / 10) :
        Vec3 → Vec3 → ℚ → ℚ)
      ((Vec3.add ⟨0, 0, 0⟩ (Vec3.smul (1 / 10) ⟨0, 0, -1⟩)))
      (Vec3.neg ⟨0, 0, 1⟩) 1000 < 0 ∧
    isFaceAccessibleFromDirection
      (fun _ dir _ => if dir = (⟨0, 0, -1⟩ : Vec3) then (-1 : ℚ) else 1 / 10)
      ⟨⟨0, 0, 0⟩, ⟨0, 0, -1⟩⟩ (Vec3.neg ⟨0, 0, 1⟩) = false := by
  constructor
  · norm_num [Vec3.neg, Vec3.add, Vec3.smul]
  · norm_num [isFaceAccessibleFromDirection, Vec3.dot, Vec3.neg]

end Palmetto

namespace Palmetto

/-! ## C4: cavity recognizer (`cavity_recognizer.cpp`)

`CONVEX_ANGLE_THRESHOLD = 5.0` (cavity_recognizer.h:104).  `std::sqrt`
is external to the model: `EstimateCavityVolume` takes it as an oracle
parameter, instantiated with its true value at each concrete input. -/

/-- `CavityRecognizer::FindSeedFaces` (cavity_recognizer.cpp:89-130):
faces with no neighbors are skipped; otherwise count concave edges
(`θ > 5 ∧ |θ| < 177`) and require `concave/len ≥ 0.6` and
`concave ≥ 2` (the convex count is computed but unused for seeding). -/
def findSeedFaces (m : Model) : List ℕ :=
  (List.range (faceCount m)).filter fun i =>
    let neighbors := getNeighbors m.adj i
    if neighbors.isEmpty then false
    else
      let concave_edge_count := neighbors.countP fun nb =>
        let θ := getDihedralAngle m.adj i nb
        decide (θ > 5 ∧ |θ| < 177)
      decide ((concave_edge_count : ℚ) / neighbors.length ≥ 6 / 10 ∧
        2 ≤ concave_edge_count)

/-- `CavityRecognizer::ShouldPropagate` (cavity_recognizer.cpp:164-181):
smooth (`|θ| > 177`) or concave (`θ > 5 ∧ |θ| < 177`). -/
def shouldPropagateCav (m : Model) (face1_id face2_id : ℕ) : Bool :=
  let dihedral := getDihedralAngle m.adj face1_id face2_id
  let is_smooth := decide (|dihedral| > 177)
  let is_concave := decide (dihedral > 5 ∧ |dihedral| < 177)
  is_smooth || is_concave

/-- The BFS queue loop of `CavityRecognizer::PropagateFromSeed`
(cavity_recognizer.cpp:132-162), with explicit fuel bounding the number
of pops (each face is pushed at most once because it enters `traversed`
when pushed, so `faceCount + 1` fuel drains the queue).  Returns
`(cavity_faces, traversed)`. -/
def cavBFS (m : Model) : ℕ → List ℕ → List ℕ → List ℕ → List ℕ × List ℕ
  | 0, _, traversed, faces => (faces, traversed)
  | _ + 1, [], traversed, faces => (faces, traversed)
  | fuel + 1, c :: qs, traversed, faces =>
      let step := (getNeighbors m.adj c).foldl
        (fun (qt : List ℕ × List ℕ) nb =>
          if nb ∈ qt.2 then qt
          else if shouldPropagateCav m c nb then
            (qt.1 ++ [nb], qt.2 ++ [nb])
          else qt) (qs, traversed)
      cavBFS m fuel step.1 step.2 (faces ++ [c])

/-- `CavityRecognizer::PropagateFromSeed`. -/
def propagateFromSeed (m : Model) (seed_id : ℕ) : List ℕ × List ℕ :=
  cavBFS m (faceCount m + 1) [seed_id] [seed_id] []

/-- Whether a cavity face has a convex boundary edge to a face outside
the cavity (the inner loop of the boundary checks,
cavity_recognizer.cpp:199-210 and 227-241). -/
def hasConvexBoundary (m : Model) (cavity_faces : List ℕ) (face_id : ℕ) :
    Bool :=
  (getNeighbors m.adj face_id).any fun nb =>
    if nb ∈ cavity_faces then false
    else
      let dihedral := getDihedralAngle m.adj face_id nb
      decide (dihedral < -5 ∧ |dihedral| < 177)

/-- `CavityRecognizer::EstimateCavityVolume`
(cavity_recognizer.cpp:253-267): `A · √A · 0.1` with the external
`std::sqrt` as an oracle. -/
def estimateCavityVolume (m : Model) (sqrtQ : ℚ → ℚ)
    (cavity_faces : List ℕ) : ℚ :=
  let total_area := cavity_faces.foldl
    (fun s f => s + (attrAt m f).area) 0
  total_area * sqrtQ total_area * (1 / 10)

/-- `CavityRecognizer::ValidateCavity` (cavity_recognizer.cpp:183-251).
`(size_t)(total_faces * 0.25)` truncates toward zero, i.e.
`⌊faceCount/4⌋`. -/
def validateCavity (m : Model) (sqrtQ : ℚ → ℚ) (cavity_faces : List ℕ)
    (max_volume : ℚ) : Bool :=
  if cavity_faces.length < 3 then false
  else if (faceCount m / 4 : ℕ) ≤ cavity_faces.length then false
  else
    let boundary_count := cavity_faces.countP (hasConvexBoundary m cavity_faces)
    if 15 < cavity_faces.length ∧
        (boundary_count : ℚ) / cavity_faces.length < 25 / 100 then false
    else if max_volume < estimateCavityVolume m sqrtQ cavity_faces then false
    else
      decide ((boundary_count : ℚ) / cavity_faces.length ≥ 2 / 10)

/-- `CavityRecognizer::CreateCavity` (cavity_recognizer.cpp:269-297),
without the id string.  The source copies a `std::set<int>` (ascending
order) into `face_ids`; the model keeps BFS order — only the underlying
set of ids is used by any property here. -/
def createCavity (m : Model) (sqrtQ : ℚ → ℚ) (cavity_faces : List ℕ) :
    Feature :=
  let total_area := cavity_faces.foldl (fun s f => s + (attrAt m f).area) 0
  { ftype := "cavity", subtype := "pocket", face_ids := cavity_faces,
    params := [("face_count", (cavity_faces.length : ℚ)),
               ("total_area_mm2", total_area),
               ("estimated_volume_mm3", estimateCavityVolume m sqrtQ cavity_faces)],
    confidence := 70 / 100, source := "cavity_recognizer" }

/-- The seed loop of `CavityRecognizer::Recognize`
(cavity_recognizer.cpp:28-87), threading
`(global_traversed, cavities)`. -/
def cavityStep (m : Model) (sqrtQ : ℚ → ℚ) (max_volume : ℚ)
    (st : List ℕ × List Feature) (seed_id : ℕ) : List ℕ × List Feature :=
  let (global_traversed, cavities) := st
  if seed_id ∈ global_traversed then st
  else
    let pr := propagateFromSeed m seed_id
    let global' := global_traversed ++ pr.2
    if validateCavity m sqrtQ pr.1 max_volume then
      (global', cavities ++ [createCavity m sqrtQ pr.1])
    else (global', cavities)

/-- `CavityRecognizer::Recognize`. -/
def cavityRecognize (m : Model) (sqrtQ : ℚ → ℚ) (max_volume : ℚ) :
    List Feature :=
  ((findSeedFaces m).foldl (cavityStep m sqrtQ max_volume) ([], [])).2

/-- Reachability from a seed across edges the cavity propagation may
cross (smooth or concave). -/
inductive CavReach (m : Model) (seed : ℕ) : ℕ → Prop
  | refl : CavReach m seed seed
  | step {g f : ℕ} : CavReach m seed g → f ∈ getNeighbors m.adj g →
      shouldPropagateCav m g f = true → CavReach m seed f

end Palmetto

namespace Palmetto

lemma cavBFS_reach (m : Model) (seed : ℕ) :
    ∀ fuel queue trav faces,
      (∀ x ∈ queue, CavReach m seed x) →
      (∀ x ∈ faces, CavReach m seed x) →
      ∀ x ∈ (cavBFS m fuel queue trav faces).1, CavReach m seed x := by
  intro fuel
  induction fuel with
  | zero =>
      intro queue trav faces _ hfaces x hx
      exact hfaces x hx
  | succ n ih =>
      intro queue trav faces hqueue hfaces x hx
      match queue with
      | [] => exact hfaces x hx
      | c :: qs =>
          have hc : CavReach m seed c := hqueue c (List.mem_cons_self c qs)
          have hqs : ∀ y ∈ qs, CavReach m seed y :=
            fun y hy => hqueue y (List.mem_cons_of_mem c hy)
          have hstep : ∀ y ∈ ((getNeighbors m.adj c).foldl
              (fun (qt : List ℕ × List ℕ) nb =>
                if nb ∈ qt.2 then qt
                else if shouldPropagateCav m c nb then
                  (qt.1 ++ [nb], qt.2 ++ [nb])
                else qt) (qs, trav)).1, CavReach m seed y := by
            refine List.foldlRecOn
              (motive := fun qt => ∀ y ∈ qt.1, CavReach m seed y)
              (getNeighbors m.adj c) _ (qs, trav) hqs ?_
            intro qt hqt nb hnb
            by_cases h1 : nb ∈ qt.2
            · simpa [h1] using hqt
            · by_cases h2 : shouldPropagateCav m c nb
              · simp only [h1, if_false, h2, if_true]
                intro y hy
                rcases List.mem_append.mp hy with hy | hy
                · exact hqt y hy
                · have : y = nb := by simpa using hy
                  subst this
                  exact CavReach.step hc hnb h2
              · simpa [h1, h2] using hqt
          have hfaces' : ∀ y ∈ faces ++ [c], CavReach m seed y := by
            intro y hy
            rcases List.mem_append.mp hy with hy | hy
            · exact hfaces y hy
            · have : y = c := by simpa using hy
              subst this
              exact hc
          exact ih _ _ _ hstep hfaces' x hx

lemma propagateFromSeed_reach (m : Model) (seed : ℕ) :
    ∀ x ∈ (propagateFromSeed m seed).1, CavReach m seed x := by
  intro x hx
  refine cavBFS_reach m seed (faceCount m + 1) [seed] [seed] [] ?_ ?_ x hx
  · intro y hy
    have : y = seed := by simpa using hy
    subst this
    exact CavReach.refl
  · intro y hy
    exact absurd hy (List.not_mem_nil y)

lemma cavityRecognize_inv (m : Model) (sqrtQ : ℚ → ℚ) (max_volume : ℚ) :
    ∀ ft ∈ ((findSeedFaces m).foldl (cavityStep m sqrtQ max_volume)
        ([], [])).2,
      ∃ s, ∀ f ∈ ft.face_ids, CavReach m s f := by
  refine List.foldlRecOn
    (motive := fun (st : List ℕ × List Feature) =>
      ∀ ft ∈ st.2, ∃ s, ∀ f ∈ ft.face_ids, CavReach m s f)
    (findSeedFaces m) (cavityStep m sqrtQ max_volume) ([], [])
    (by simp) ?_
  intro st hst seed _
  unfold cavityStep
  obtain ⟨gtrav, cavs⟩ := st
  dsimp only
  split_ifs with h1 h2
  · exact hst
  · intro ft hft
    rcases List.mem_append.mp hft with hold | hnew
    · exact hst ft hold
    · have heq : ft = createCavity m sqrtQ (propagateFromSeed m seed).1 := by
        simpa using hnew
      subst heq
      refine ⟨seed, ?_⟩
      intro f hf
      exact propagateFromSeed_reach m seed f
        (by simpa [createCavity] using hf)
  · exact hst

/-- C4 amended.  Every face of an emitted cavity feature is reachable
from the feature's seed by crossing only edges the propagation may
cross — smooth (`|θ| > 177°`) or concave (`θ > 5°`, the implementation
threshold).  An individual adjacency *between* two faces of the set may
nevertheless be convex, as the C4 counterexample below shows: the BFS
never crosses it, but both endpoints can be reached along other
paths. -/
theorem cavity_faces_reachable (m : Model) (sqrtQ : ℚ → ℚ)
    (max_volume : ℚ) :
    ∀ feat ∈ cavityRecognize m sqrtQ max_volume,
      ∃ s, ∀ f ∈ feat.face_ids, CavReach m s f := by
  intro feat hfeat
  exact cavityRecognize_inv m sqrtQ max_volume feat hfeat

/-- `std::sqrt` restricted to the one value the concrete cavity model
needs (`√36 = 6`). -/
def sqrtOracle : ℚ → ℚ := fun x => if x = 36 then 6 else 0

def cavAttr : FaceAttr := { (default : FaceAttr) with area := 12 }

/-- 16 faces; faces 0,1,2 form a pocket-like cluster: seed 0 has
concave edges to 1 and 2 (θ = 90), the internal edge (1,2) is convex
(θ = −90), and face 1 has a convex boundary edge to face 3; faces 4-15
are isolated filler so the 25%-size check passes. -/
def mCavity : Model :=
  { attrs := [cavAttr, cavAttr, cavAttr] ++ List.replicate 13 default,
    geom := List.replicate 16 default,
    adj := buildAdjacency ⟨16, [⟨[0, 1], 90⟩, ⟨[0, 2], 90⟩,
      ⟨[1, 2], -90⟩, ⟨[1, 3], -90⟩]⟩ }

lemma mCavity_seeds : findSeedFaces mCavity = [0] := by
  have hrange : List.range 16 = [0, 1, 2, 3, 4, 5, 6, 7, 8, 9, 10, 11, 12,
    13, 14, 15] := by rfl
  norm_num [findSeedFaces, faceCount, mCavity, cavAttr, hrange,
    getNeighbors, getDihedralAngle, getEdge, buildAdjacency, buildAdjStep,
    classifyEdge, List.filter_cons, List.countP_cons, List.foldl_cons,
    List.foldl_nil, List.filterMap_cons, List.filterMap_nil,
    List.replicate_succ]
  simp

lemma mCavity_run :
    cavityRecognize mCavity sqrtOracle (10 ^ 9) =
      [createCavity mCavity sqrtOracle [0, 1, 2]] := by
  unfold cavityRecognize
  rw [mCavity_seeds]
  norm_num [cavityStep, propagateFromSeed, cavBFS, shouldPropagateCav,
    validateCavity, hasConvexBoundary, estimateCavityVolume, sqrtOracle,
    getDihedralAngle, getEdge, getNeighbors, faceCount, attrAt, mCavity,
    cavAttr, buildAdjacency, buildAdjStep, classifyEdge, List.countP_cons,
    List.foldl_cons, List.foldl_nil, List.filterMap_cons,
    List.filterMap_nil, List.replicate_succ]

/-- C4 counterexample.  The cavity emitted on `mCavity` contains faces
1 and 2, which are adjacent with dihedral angle −90°: an S-internal
adjacency that is neither smooth (`|θ| > 177°`) nor concave (`θ > 0`),
i.e. a convex edge inside a cavity's face set. -/
theorem cavity_internal_convex_edge :
    (∃ feat ∈ cavityRecognize mCavity sqrtOracle (10 ^ 9),
      1 ∈ feat.face_ids ∧ 2 ∈ feat.face_ids) ∧
    2 ∈ getNeighbors mCavity.adj 1 ∧
    getDihedralAngle mCavity.adj 1 2 = -90 ∧
    ¬(|getDihedralAngle mCavity.adj 1 2| > 177 ∨
      (0 < getDihedralAngle mCavity.adj 1 2 ∧
        ¬(|getDihedralAngle mCavity.adj 1 2| > 177))) := by
  refine ⟨⟨createCavity mCavity sqrtOracle [0, 1, 2], ?_, ?_, ?_⟩, ?_, ?_, ?_⟩
  · rw [mCavity_run]; exact List.mem_singleton.mpr rfl
  · norm_num [createCavity]
  · norm_num [createCavity]
  · norm_num [getNeighbors, mCavity, buildAdjacency, buildAdjStep,
      classifyEdge, List.foldl_cons, List.foldl_nil, List.filterMap_cons,
      List.filterMap_nil]
  · norm_num [getDihedralAngle, getEdge, mCavity, buildAdjacency,
      buildAdjStep, classifyEdge, List.foldl_cons, List.foldl_nil]
  · norm_num [getDihedralAngle, getEdge, mCavity, buildAdjacency,
      buildAdjStep, classifyEdge, List.foldl_cons, List.foldl_nil]

/-- Witness for C4 amended: the cavity emitted on `mCavity` has a seed
from which all its faces are smooth/concave-reachable. -/
theorem cavity_faces_reachable_witness :
    ∃ s, ∀ f ∈ (createCavity mCavity sqrtOracle [0, 1, 2]).face_ids,
      CavReach mCavity s f :=
  cavity_faces_reachable mCavity sqrtOracle (10 ^ 9) _
    (by rw [mCavity_run]; exact List.mem_singleton.mpr rfl)

end Palmetto
